import Mathlib

set_option maxHeartbeats 1000000

/-!
Shallow embedding of the Vitess per-tablet query executor
(go/vt/tabletserver/query_executor.go).

The executor is modelled as a deterministic computation in a monad `M`
combining state (`St`: bind variables, SET-tunables, call counters),
exceptions (`Panic`: Go panics, which this file uses for all error
propagation), and a write-only trace of observable effects (`Event`:
pool Get/Recycle, backend Exec, cache operations, invalidator Delete,
stats-log entries, ...).  External collaborators that are not part of
src/ (the SQL template engine, the row cache, the connection and
transaction pools, the consolidator, the policy rules) are modelled as
oracles in an environment `Env`; Go `defer` statements become
trace-appending wrappers that run on both the normal and the panic exit.
-/

/-- A SQL cell value: sqltypes.Value, observed through IsNull() and String(). -/
structure Val where
  isNull : Bool
  str : String
deriving Repr, DecidableEq

/-- A row: ordered sequence of typed values. -/
abbrev Row := List Val

/-- Column metadata (mproto.Field list), kept abstract as column names. -/
abbrev Fields := List String

/-- Identity of a sqlparser.ParsedQuery template (FullQuery / OuterQuery / Subquery). -/
abbrev PQ := Nat

/-- Closed variant of the bind-variable values query_executor.go stores into
bindVars: plain values, the sqlparser.TupleEqualityList written under key
"#pk", the inner-row list written under key "#values", and the int written
under key "#maxLimit". -/
inductive BindVal where
  | int (i : Int)
  | tupleList (cols : List String) (rows : List Row)
  | valuesRows (rows : List Row)
  | str (s : String)
deriving Repr, DecidableEq

/-- A Go map[string]interface{} of bind variables, as an association list. -/
abbrev BindMap := List (String × BindVal)

/-- Go map assignment m[k] = v. -/
def bmSet (m : BindMap) (k : String) (v : BindVal) : BindMap :=
  match m with
  | [] => [(k, v)]
  | (k0, v0) :: rest => if k0 = k then (k, v) :: rest else (k0, v0) :: bmSet rest k v

/-- Go map lookup m[k] (with presence information). -/
def bmGet (m : BindMap) (k : String) : Option BindVal :=
  match m with
  | [] => none
  | (k0, v0) :: rest => if k0 = k then some v0 else bmGet rest k

theorem bmGet_bmSet_self (m : BindMap) (k : String) (v : BindVal) :
    bmGet (bmSet m k v) k = some v := by
  induction m with
  | nil => simp [bmSet, bmGet]
  | cons h rest ih =>
    obtain ⟨k0, v0⟩ := h
    by_cases hk : k0 = k
    · simp [bmSet, bmGet, hk]
    · simp [bmSet, bmGet, hk, ih]

theorem bmGet_bmSet_ne (m : BindMap) (k1 k2 : String) (v : BindVal) (h : k2 ≠ k1) :
    bmGet (bmSet m k2 v) k1 = bmGet m k1 := by
  have h2 : k1 ≠ k2 := fun hh => h hh.symm
  induction m with
  | nil => simp [bmSet, bmGet, h, h2]
  | cons hd rest ih =>
    obtain ⟨k0, v0⟩ := hd
    by_cases hk : k0 = k2
    · subst hk
      simp [bmSet, bmGet, h, h2]
    · by_cases hk1 : k0 = k1
      · subst hk1
        simp [bmSet, bmGet, hk, h2]
      · simp [bmSet, bmGet, hk, hk1, ih]

/-- The error kinds of tabletserver.TabletError (ErrFail, ErrRetry, ErrFatal,
ErrTxPoolFull, ErrNotInTx). -/
inductive ErrKind where
  | fail
  | retry
  | fatal
  | txPoolFull
  | notInTx
deriving Repr, DecidableEq

/-- A Go panic value as raised by query_executor.go: either a TabletError
(NewTabletError / NewTabletErrorSql) or a plain value such as the string
literal panicked in fetchMulti, and the runtime error of a nil-pointer
dereference. -/
inductive Panic where
  | tabletError (k : ErrKind) (msg : String)
  | str (s : String)
deriving Repr, DecidableEq

/-- mproto.QueryResult. -/
structure QueryResult where
  fields : Option Fields := none
  rows : List Row := []
  rowsAffected : Nat := 0
  insertID : Nat := 0
deriving Repr, DecidableEq

/-- An RCResult from the row-cache adapter: nullable row plus CAS token. -/
structure RCResult where
  row : Option Row
  cas : Nat
deriving Repr, DecidableEq

/-- Result of planbuilder.DDLParse. -/
structure DDLPlan where
  action : String
  tableName : String
  newName : String
deriving Repr, DecidableEq

/-- Error returned by ConnPool.Get. -/
inductive PoolGetErr where
  | closed
  | other (msg : String)
deriving Repr, DecidableEq

/-- QueryRules action: QR_CONTINUE (zero value), QR_FAIL, QR_FAIL_RETRY. -/
inductive QRAction where
  | qrContinue
  | qrFail
  | qrFailRetry
deriving Repr, DecidableEq

/-- The value of plan.SetValue (a Go interface{} holding int64, float64 or
another shape), as the tagged variant the executor's runtime type checks
distinguish. Floats are carried as exact rationals. -/
inductive SetVal where
  | int (i : Int)
  | float (q : Rat)
  | str (s : String)
  | other
deriving Repr, DecidableEq

/-- planbuilder PlanType. -/
inductive PlanId where
  | PASS_SELECT
  | PASS_DML
  | PK_IN
  | SELECT_SUBQUERY
  | SET
  | DDL
  | INSERT_PK
  | INSERT_SUBQUERY
  | DML_PK
  | DML_SUBQUERY
  | OTHER
deriving Repr, DecidableEq

/-- PlanType.String() of planbuilder. -/
def PlanId.goName : PlanId → String
  | .PASS_SELECT => "PASS_SELECT"
  | .PASS_DML => "PASS_DML"
  | .PK_IN => "PK_IN"
  | .SELECT_SUBQUERY => "SELECT_SUBQUERY"
  | .SET => "SET"
  | .DDL => "DDL"
  | .INSERT_PK => "INSERT_PK"
  | .INSERT_SUBQUERY => "INSERT_SUBQUERY"
  | .DML_PK => "DML_PK"
  | .DML_SUBQUERY => "DML_SUBQUERY"
  | .OTHER => "OTHER"

/-- schema cache type of a table. -/
inductive CacheType where
  | cacheNone
  | cacheRW
  | cacheW
deriving Repr, DecidableEq

/-- The slice of schema.TableInfo the executor reads: the cache type, the
columns of Indexes[0], and the PKColumns projection. -/
structure TableInfo where
  cacheType : CacheType
  indexColumns : List String
  pkColumns : List Nat
deriving Repr, DecidableEq

/-- The slice of ExecPlan the executor reads. `reasonLock` stands for
Reason == REASON_LOCK, `authorized` for the ACL principal list (nil when the
table-ACL check is disabled for the plan). The parameterized SQL templates
are abstract template identities resolved by the environment. -/
structure Plan where
  planId : PlanId
  reasonLock : Bool
  tableInfo : Option TableInfo
  tableName : String
  fields : Option Fields
  fullQuery : PQ
  outerQuery : PQ
  subquery : PQ
  columnNumbers : List Nat
  subqueryPKColumns : List Nat
  setKey : String
  setValue : SetVal
  authorized : Option (List String)
deriving Repr, DecidableEq

/-- One request: the QueryExecutor value (query, bindVars live in `St`,
transactionID, plan). -/
structure Qre where
  query : String
  transactionID : Int
  plan : Plan
deriving Repr, DecidableEq

/-- Observable effects of one request, recorded as a trace.
getTx / getPool are the successful txPool.Get / ConnPool.Get acquisitions,
recycle the PooledConn.Recycle calls; execOk / execErr the conn.Exec calls
(with the maxrows and wantfields arguments, and the RowsAffected of a
successful response); rewritten the logStats.AddRewrittenSql entries;
genSql the calls into ParsedQuery.GenerateQuery with the exact bind map;
invalidate the CacheInvalidator.Delete calls. -/
inductive Event where
  | getTx (txid : Int)
  | getPool
  | recycle
  | genSql (pq : PQ) (bv : BindMap) (bsc : Option String)
  | execOk (sql : String) (maxrows : Int) (wantfields : Bool) (rowsAffected : Nat)
  | execErr (sql : String) (maxrows : Int) (wantfields : Bool)
  | rewritten (sql : String)
  | cacheGet (keys : List String)
  | cacheSet (key : String) (cas : Nat)
  | cacheStats (hits absent misses : Int)
  | invalidate (table : String) (key : String)
  | recordQuery (q : String)
  | dirtyKeys (table : String)
  | txBegin (txid : Int)
  | txCommit (txid : Int)
  | txRollback (txid : Int)
  | txSafeCommit (txid : Int)
  | streamComment (pkRows : List Row)
  | rulesGetAction (addr user : String)
  | aclLogError (msg : String)
  | consFollow (sql : String)
  | consBroadcast (sql : String)
  | launchRecheck
  | spotCheckInc
  | schemaDrop (table : String)
  | schemaCreateOrUpdate (table : String)
  | poolSetCapacity (pool : String) (n : Int)
  | poolSetIdleTimeout (nanos : Int)
  | setTimeoutEv (which : String) (nanos : Int)
  | setReloadTime (nanos : Int)
  | setQueryCacheSize (n : Int)
deriving Repr, DecidableEq

/-- Mutable per-request / engine state: the request's bindVars map (the
executor mutates it, adding "#pk", "#values", "#maxLimit"), the SET-tunable
sync values of the QueryEngine, and the cursor of each oracle stream. -/
structure St where
  bindVars : BindMap
  maxResultSize : Int
  maxDMLRows : Int
  streamBufferSize : Int
  strictMode : Int
  spotCheckFreq : Int
  execIdx : Nat
  poolGetIdx : Nat
  txBeginIdx : Nat
  randIdx : Nat
deriving Repr, DecidableEq

/-- The environment: request context, engine configuration, and the
behavior of every external collaborator, as oracles.  Streams of outcomes
(conn.Exec responses, pool Get outcomes, Begin outcomes, Rand draws) are
indexed by the per-request call counters in `St`. -/
structure Env where
  ctxBackground : Bool
  callInfo : Option (String × String)
  strictTableAcl : Bool
  enableAutoCommit : Bool
  generateQuery : PQ → BindMap → Except String String
  restoreTrailing : String → BindMap → String
  execResp : Nat → Except Panic QueryResult
  poolGet : Nat → Option PoolGetErr
  txPoolGet : Int → Option Panic
  txBeginRes : Nat → Except Panic Int
  cacheGetOracle : String → RCResult
  randVal : Nat → Nat
  consCreate : String → Bool
  consResult : String → Except Panic QueryResult
  buildValueList : BindMap → Except Panic (List Row)
  buildSecondaryList : List Row → BindMap → Except Panic (Option (List Row))
  buildStreamComment : List Row → Option (List Row) → String
  buildKey : Row → String
  applyFilter : List Nat → Row → Row
  applyFilterWithPKDefaults : List Nat → Row → Row
  validateRow : Row → Except Panic Unit
  getLimit : BindMap → Except Panic Int
  getActionRes : String → String → BindMap → QRAction × String
  ddlParse : String → DDLPlan

/-- The computation monad: environment reader, state, exception (Go panic),
and an event trace (writer). -/
def M (α : Type) : Type := Env → St → Except Panic α × St × List Event

def M.pure {α : Type} (a : α) : M α := fun _ s => (.ok a, s, [])

def M.bind {α β : Type} (m : M α) (k : α → M β) : M β := fun env s =>
  match m env s with
  | (.ok a, s1, t1) =>
    match k a env s1 with
    | (r, s2, t2) => (r, s2, t1 ++ t2)
  | (.error e, s1, t1) => (.error e, s1, t1)

instance : Monad M where
  pure := M.pure
  bind := M.bind

/-- Raise a Go panic. -/
def throwM {α : Type} (e : Panic) : M α := fun _ s => (.error e, s, [])

/-- Record an observable effect. -/
def emitM (ev : Event) : M Unit := fun _ s => (.ok (), s, [ev])

def askEnv : M Env := fun env s => (.ok env, s, [])

def getSt : M St := fun _ s => (.ok s, s, [])

def modifySt (f : St → St) : M Unit := fun _ s => (.ok (), f s, [])

def setBindVars (bv : BindMap) : M Unit := modifySt (fun s => { s with bindVars := bv })

/-- Go defer of an effect-only finalizer: the event is appended to the trace
on both the normal and the panic exit of the body. -/
def withEventAfter {α : Type} (ev : Event) (body : M α) : M α := fun env s =>
  match body env s with
  | (r, s2, t) => (r, s2, t ++ [ev])

/-- defer conn.Recycle(). -/
def withRecycle {α : Type} (body : M α) : M α := withEventAfter Event.recycle body

/-! ## Primitive operations against the external collaborators -/

/-- A pooled backend connection token. The oracle streams in `Env` are
indexed by call counters, so the token carries no data. -/
abbrev Conn := Unit

/-- txPool.Get(transactionID): returns the pinned connection, or panics if
the transaction id is unknown or already recycled (a TabletError raised
inside the transaction pool, modelled by the environment). -/
def txGetM (txid : Int) : M Conn := fun env s =>
  match env.txPoolGet txid with
  | some p => (.error p, s, [])
  | none => (.ok (), s, [.getTx txid])

/-- txPool.Begin(ctx): issues backend BEGIN and returns the transaction id,
or panics (for example with ErrTxPoolFull on saturation). -/
def txBeginM : M Int := fun env s =>
  let idx := s.txBeginIdx
  let s2 := { s with txBeginIdx := idx + 1 }
  match env.txBeginRes idx with
  | .error e => (.error e, s2, [])
  | .ok txid => (.ok txid, s2, [.txBegin txid])

/-- ConnPool.Get(ctx), returning the error as a value (qFetch inspects it). -/
def poolGetRaw : M (Except PoolGetErr Conn) := fun env s =>
  let idx := s.poolGetIdx
  let s2 := { s with poolGetIdx := idx + 1 }
  match env.poolGet idx with
  | some e => (.ok (.error e), s2, [])
  | none => (.ok (.ok ()), s2, [.getPool])

def poolGetErrMsg : PoolGetErr → String
  | .closed => "connection pool is closed"
  | .other msg => msg

/-- QueryExecutor.getConn: acquire from the conn pool; on ErrConnPoolClosed
panic with that error itself, on any other error panic with
NewTabletErrorSql(ErrFatal, err). -/
def getConn : M Conn := do
  let r ← poolGetRaw
  match r with
  | .ok c => pure c
  | .error PoolGetErr.closed => throwM (.tabletError .fatal "connection pool is closed")
  | .error (PoolGetErr.other msg) => throwM (.tabletError .fatal msg)

/-- Modelled from the spec: PooledConn.Exec (DBConn, not under src/) runs the
final SQL against the backend with a maxrows cap; per the spec, "a result
exceeding maxResultSize rows is an error".  The raw backend outcome comes
from the environment stream; the cap check is applied on top of it. -/
def connExec (sql : String) (maxrows : Int) (wantfields : Bool) : M (Except Panic QueryResult) :=
  fun env s =>
    let idx := s.execIdx
    let s2 := { s with execIdx := idx + 1 }
    match env.execResp idx with
    | .error e => (.ok (.error e), s2, [.execErr sql maxrows wantfields])
    | .ok r =>
      if maxrows < (r.rows.length : Int) then
        (.ok (.error (.tabletError .fail ("Row count exceeded " ++ toString maxrows))), s2,
          [.execErr sql maxrows wantfields])
      else
        (.ok (.ok r), s2, [.execOk sql maxrows wantfields r.rowsAffected])

/-- QueryExecutor.execSQLNoPanic: runs conn.Exec with
maxrows = int(qe.maxResultSize.Get()), and (deferred) records the rewritten
SQL in the stats log. -/
def execSQLNoPanic (conn : Conn) (sql : String) (wantfields : Bool) : M (Except Panic QueryResult) := do
  let st ← getSt
  let r ← connExec sql st.maxResultSize wantfields
  emitM (.rewritten sql)
  pure r

/-- QueryExecutor.execSQL. Note: the source passes the literal `true` to
execSQLNoPanic, ignoring its own wantfields parameter. -/
def execSQL (conn : Conn) (sql : String) (wantfields : Bool) : M QueryResult := do
  let r ← execSQLNoPanic conn sql true
  match r with
  | .error e => throwM e
  | .ok q => pure q

/-- QueryExecutor.generateFinalSql: set bindVars["#maxLimit"] to
maxResultSize + 1, substitute the bind variables into the template
(panicking with ErrFail on a substitution error), append the stream comment
when present, and restore the trailing token stripped during normalization.
Takes and returns the (mutated) bind map it was handed. -/
def generateFinalSql (pq : PQ) (bv : BindMap) (bsc : Option String) : M (String × BindMap) :=
  fun env s =>
    let bv2 := bmSet bv "#maxLimit" (.int (s.maxResultSize + 1))
    match env.generateQuery pq bv2 with
    | .error e => (.error (.tabletError .fail e), s, [.genSql pq bv2 bsc])
    | .ok sql0 =>
      let sql1 := match bsc with
        | some c => sql0 ++ c
        | none => sql0
      let sql2 := env.restoreTrailing sql1 bv2
      (.ok (sql2, bv2), s, [.genSql pq bv2 bsc])

/-- QueryExecutor.directFetch. -/
def directFetch (conn : Conn) (pq : PQ) (bv : BindMap) (bsc : Option String) :
    M (QueryResult × BindMap) := do
  let (sql, bv2) ← generateFinalSql pq bv bsc
  let r ← execSQL conn sql false
  pure (r, bv2)

/-- QueryExecutor.fullFetch (also fetches field info). -/
def fullFetch (conn : Conn) (pq : PQ) (bv : BindMap) (bsc : Option String) :
    M (QueryResult × BindMap) := do
  let (sql, bv2) ← generateFinalSql pq bv bsc
  let r ← execSQL conn sql true
  pure (r, bv2)

/-- The consolidator-leader section of qFetch: acquire a conn from the conn
pool (recording the wait in logStats), run the no-panic exec, then run the
deferred conn.Recycle() and q.Broadcast() in that order.  The outcome is
held as a value (the source stores it in q.Result / q.Err and panics only
after the defers have run). -/
def qFetchLeader (sql : String) : M (Except Panic QueryResult) := do
  let pg ← poolGetRaw
  withEventAfter (.consBroadcast sql) (match pg with
    | .error e => pure (.error (.tabletError .fatal (poolGetErrMsg e)))
    | .ok conn => withRecycle (execSQLNoPanic conn sql false))

/-- QueryExecutor.qFetch: generate the final SQL, submit it to the
consolidator; the creator executes it on a pool connection, a follower
waits and shares the stored result; either panics with the stored error. -/
def qFetch (pq : PQ) (bv : BindMap) : M (QueryResult × BindMap) := do
  let (sql, bv2) ← generateFinalSql pq bv none
  let env ← askEnv
  if env.consCreate sql then do
    let qres ← qFetchLeader sql
    match qres with
    | .error e => throwM e
    | .ok r => pure (r, bv2)
  else do
    emitM (.consFollow sql)
    match env.consResult sql with
    | .error e => throwM e
    | .ok r => pure (r, bv2)

/-! ## Row cache read-through -/

/-- The spot-check frequency multiplier of the QueryEngine (a package
constant defined outside src/; its exact value does not matter to any
claim, only that it is the modulus of the random draw). -/
def spotCheckMultiplier : Int := 1000000

/-- QueryExecutor.mustVerify: (Rand() % spotCheckMultiplier) < spotCheckFreq. -/
def mustVerify : M Bool := fun env s =>
  let idx := s.randIdx
  let s2 := { s with randIdx := idx + 1 }
  (.ok (decide (((env.randVal idx : Int) % spotCheckMultiplier) < s.spotCheckFreq)), s2, [])

/-- The index loop body of rowsAreEqual (null-aware, string-equal compare). -/
def rowsAreEqualLoop : List Val → List Val → Bool
  | [], _ => true
  | _ :: _, [] => true
  | a :: r1, b :: r2 =>
    if a.isNull && b.isNull then rowsAreEqualLoop r1 r2
    else if (a.isNull && !b.isNull) || (!a.isNull && b.isNull) || a.str ≠ b.str then false
    else rowsAreEqualLoop r1 r2

/-- rowsAreEqual of query_executor.go. -/
def rowsAreEqual (row1 row2 : Row) : Bool :=
  if row1.length ≠ row2.length then false
  else rowsAreEqualLoop row1 row2

/-- QueryExecutor.spotCheck: count it, re-read the row from the backend via
qFetch on OuterQuery with a fresh one-row #pk bind map, and when the rows
differ (or the backend row is gone) launch the asynchronous recheckLater
task (the task itself runs outside the request and is recorded as a
launch event). -/
def spotCheck (qre : Qre) (rcresult : RCResult) (pk : Row) : M Unit := do
  emitM .spotCheckInc
  match qre.plan.tableInfo with
  | none => throwM (.str "nil TableInfo dereference")
  | some ti => do
    let bv : BindMap := [("#pk", .tupleList ti.indexColumns [pk])]
    let (resultFromdb, _) ← qFetch qre.plan.outerQuery bv
    let dbrow : Option Row := match resultFromdb.rows with
      | [] => none
      | r :: _ => some r
    let mismatch := match dbrow with
      | none => true
      | some dr => !(rowsAreEqual (rcresult.row.getD []) dr)
    if mismatch then emitM .launchRecheck else pure ()

/-- The per-PK-row partition loop of fetchMulti: for each PK row, a cache
hit is (optionally spot-checked and) projected through ColumnNumbers and
appended to rows; a miss is appended to missingRows.  Returns
(rows, missingRows, hits). -/
def fetchHitsLoop (qre : Qre) (rc : String → RCResult) : List Row → M (List Row × List Row × Int)
  | [] => pure ([], [], 0)
  | pk :: rest => do
    let env ← askEnv
    let key := env.buildKey pk
    let r := rc key
    match r.row with
    | some row => do
      let mv ← mustVerify
      if mv then spotCheck qre r pk else pure ()
      let (rows, missing, hits) ← fetchHitsLoop qre rc rest
      pure (env.applyFilter qre.plan.columnNumbers row :: rows, missing, hits + 1)
    | none => do
      let (rows, missing, hits) ← fetchHitsLoop qre rc rest
      pure (rows, pk :: missing, hits)

/-- The backend-row loop of fetchMulti: project each returned row through
ColumnNumbers, and Cache.Set it under the key built from its PK columns
with the CAS observed at the batched Get. -/
def dbRowsLoop (qre : Qre) (ti : TableInfo) (rc : String → RCResult) : List Row → M (List Row)
  | [] => pure []
  | row :: rest => do
    let env ← askEnv
    let filtered := env.applyFilter qre.plan.columnNumbers row
    let key := env.buildKey (env.applyFilter ti.pkColumns row)
    emitM (.cacheSet key (rc key).cas)
    let more ← dbRowsLoop qre ti rc rest
    pure (filtered :: more)

/-- The row-assembly portion of QueryExecutor.fetchMulti (the source's steps
between the empty/zero guard and the limit post-truncation): build keys,
batched cache Get, partition hits/misses, fetch the missing rows from the
backend via OuterQuery with #pk = TupleEqualityList{indexCols, missingRows},
write them back to the cache, and record the hit/absent/miss counters. -/
def fetchAssembledRows (qre : Qre) (pkRows : List Row) : M (List Row) := do
  match qre.plan.tableInfo with
  | none => throwM (.str "nil TableInfo dereference")
  | some tableInfo => do
    let env ← askEnv
    let keys := pkRows.map env.buildKey
    emitM (.cacheGet keys)
    let rc : String → RCResult := fun k =>
      if keys.contains k then env.cacheGetOracle k else { row := none, cas := 0 }
    let (rows, missingRows, hits) ← fetchHitsLoop qre rc pkRows
    let (allRows, absent, misses) ←
      if missingRows.length ≠ 0 then do
        let bv : BindMap := [("#pk", .tupleList tableInfo.indexColumns missingRows)]
        let (resultFromdb, _) ← qFetch qre.plan.outerQuery bv
        let misses : Int := resultFromdb.rows.length
        let absent : Int := (pkRows.length : Int) - hits - misses
        let newRows ← dbRowsLoop qre tableInfo rc resultFromdb.rows
        pure (rows ++ newRows, absent, misses)
      else
        pure (rows, (0 : Int), (0 : Int))
    emitM (.cacheStats hits absent misses)
    pure allRows

/-- QueryExecutor.fetchMulti. -/
def fetchMulti (qre : Qre) (pkRows : List Row) (limit : Int) : M QueryResult := do
  match qre.plan.fields with
  | none => throwM (.str "unexpected")
  | some fields => do
    if pkRows.length = 0 ∨ limit = 0 then
      pure { fields := some fields, rows := [], rowsAffected := 0, insertID := 0 }
    else do
      let rows ← fetchAssembledRows qre pkRows
      let result : QueryResult :=
        { fields := some fields, rows := rows, rowsAffected := rows.length, insertID := 0 }
      if 0 < limit ∧ limit < (result.rows.length : Int) then
        pure { result with rows := result.rows.take limit.toNat, rowsAffected := limit.toNat }
      else
        pure result

/-! ## SELECT shapes -/

/-- QueryExecutor.execPKIN. -/
def execPKIN (qre : Qre) : M QueryResult := do
  let env ← askEnv
  let st ← getSt
  match env.buildValueList st.bindVars with
  | .error e => throwM e
  | .ok pkRows =>
    match env.getLimit st.bindVars with
    | .error e => throwM e
    | .ok limit => fetchMulti qre pkRows limit

/-- QueryExecutor.execSubquery: run Subquery through the consolidator, then
read-through with no row limit. -/
def execSubquery (qre : Qre) : M QueryResult := do
  let st ← getSt
  let (innerResult, bv2) ← qFetch qre.plan.subquery st.bindVars
  setBindVars bv2
  fetchMulti qre innerResult.rows (-1)

/-- QueryExecutor.execDirect. -/
def execDirect (qre : Qre) (conn : Conn) : M QueryResult := do
  match qre.plan.fields with
  | some f => do
    let st ← getSt
    let (r, bv2) ← directFetch conn qre.plan.fullQuery st.bindVars none
    setBindVars bv2
    pure { r with fields := some f }
  | none => do
    let st ← getSt
    let (r, bv2) ← fullFetch conn qre.plan.fullQuery st.bindVars none
    setBindVars bv2
    pure r

/-- QueryExecutor.execSelect. -/
def execSelect (qre : Qre) : M QueryResult := do
  match qre.plan.fields with
  | some f => do
    let st ← getSt
    let (r, bv2) ← qFetch qre.plan.fullQuery st.bindVars
    setBindVars bv2
    pure { r with fields := some f }
  | none => do
    let conn ← getConn
    withRecycle (do
      let st ← getSt
      let (r, bv2) ← fullFetch conn qre.plan.fullQuery st.bindVars none
      setBindVars bv2
      pure r)

/-! ## INSERT and DML shapes -/

/-- Go slice expression xs[i:e]. -/
def sliceL {α : Type} (xs : List α) (i e : Nat) : List α := (xs.take e).drop i

/-- QueryExecutor.execInsertPKRows: build the secondary list and the stream
comment, then execute OuterQuery on the request's bindVars. -/
def execInsertPKRows (qre : Qre) (conn : Conn) (pkRows : List Row) : M QueryResult := do
  let env ← askEnv
  let st ← getSt
  match env.buildSecondaryList pkRows st.bindVars with
  | .error e => throwM e
  | .ok secondaryList => do
    let bsc := env.buildStreamComment pkRows secondaryList
    emitM (.streamComment pkRows)
    let st2 ← getSt
    let (r, bv2) ← directFetch conn qre.plan.outerQuery st2.bindVars (some bsc)
    setBindVars bv2
    pure r

/-- QueryExecutor.execInsertPK. -/
def execInsertPK (qre : Qre) (conn : Conn) : M QueryResult := do
  let env ← askEnv
  let st ← getSt
  match env.buildValueList st.bindVars with
  | .error e => throwM e
  | .ok pkRows => execInsertPKRows qre conn pkRows

/-- QueryExecutor.execInsertSubquery: run Subquery directly; with zero inner
rows return RowsAffected = 0 immediately; otherwise validate the column
count, project the inner rows to PK rows, validate the first row, set
bindVars["#values"] = innerRows and proceed as INSERT_PK. -/
def execInsertSubquery (qre : Qre) (conn : Conn) : M QueryResult := do
  let st ← getSt
  let (innerResult, bv2) ← directFetch conn qre.plan.subquery st.bindVars none
  setBindVars bv2
  let innerRows := innerResult.rows
  match innerRows with
  | [] => pure { fields := none, rows := [], rowsAffected := 0, insertID := 0 }
  | firstRow :: _ => do
    if qre.plan.columnNumbers.length ≠ firstRow.length then
      throwM (.tabletError .fail "Subquery length does not match column list")
    else do
      let env ← askEnv
      let pkRows := innerRows.map (env.applyFilterWithPKDefaults qre.plan.subqueryPKColumns)
      match env.validateRow (env.applyFilterWithPKDefaults qre.plan.subqueryPKColumns firstRow) with
      | .error e => throwM e
      | .ok _ => do
        let st3 ← getSt
        setBindVars (bmSet st3.bindVars "#values" (.valuesRows innerRows))
        execInsertPKRows qre conn pkRows

/-- One iteration of the chunking loop of execDMLPKRows, at loop index i:
slice the batch pkRows[i:end] (and the secondary list when non-nil), build
the stream comment, set bindVars["#pk"] = TupleEqualityList{cols, batch},
execute OuterQuery, and return the batch's RowsAffected. -/
def dmlStep (qre : Qre) (conn : Conn) (cols : List String) (pkRows : List Row)
    (secondaryList : Option (List Row)) (b : Nat) (i : Nat) : M Nat := do
  let e0 := i + b
  let e := if pkRows.length ≤ e0 then pkRows.length else e0
  let batch := sliceL pkRows i e
  let secBatch := secondaryList.map (fun sl => sliceL sl i e)
  let env ← askEnv
  let bsc := env.buildStreamComment batch secBatch
  emitM (.streamComment batch)
  let st ← getSt
  let bv := bmSet st.bindVars "#pk" (.tupleList cols batch)
  setBindVars bv
  let (r, bv2) ← directFetch conn qre.plan.outerQuery bv (some bsc)
  setBindVars bv2
  pure r.rowsAffected

/-- The chunking loop of execDMLPKRows over the Go loop indices
i = 0, maxRows, 2*maxRows, ... < len(pkRows), accumulating
result.RowsAffected += r.RowsAffected per batch. -/
def dmlLoop (qre : Qre) (conn : Conn) (cols : List String) (pkRows : List Row)
    (secondaryList : Option (List Row)) (b : Nat) : List Nat → Nat → M Nat
  | [], acc => pure acc
  | i :: rest, acc => do
    let ra ← dmlStep qre conn cols pkRows secondaryList b i
    dmlLoop qre conn cols pkRows secondaryList b rest (acc + ra)

/-- The invalidator loop at the end of execDMLPKRows: Delete the key of
every target PK row. -/
def invalidateLoop (table : String) : List Row → M Unit
  | [] => pure ()
  | pk :: rest => do
    let env ← askEnv
    emitM (.invalidate table (env.buildKey pk))
    invalidateLoop table rest

/-- QueryExecutor.execDMLPKRows.  The Go loop
`for i := 0; i < len(pkRows); i += maxRows` is modelled by iterating over
its index sequence 0, b, 2b, ... (of length (len + b - 1) / b); the Go loop
does not terminate for maxRows < 1, so the model is faithful for the
b >= 1 range the engine guarantees (execSet rejects vt_max_dml_rows < 1). -/
def execDMLPKRows (qre : Qre) (conn : Conn) (pkRows : List Row) (invalidator : Option String) :
    M QueryResult := do
  if pkRows.length = 0 then
    pure { fields := none, rows := [], rowsAffected := 0, insertID := 0 }
  else
    match qre.plan.tableInfo with
    | none => throwM (.str "nil TableInfo dereference")
    | some ti => do
      let env ← askEnv
      let st ← getSt
      match env.buildSecondaryList pkRows st.bindVars with
      | .error e => throwM e
      | .ok secondaryList => do
        let b := st.maxDMLRows.toNat
        let idxs := List.range' 0 ((pkRows.length + b - 1) / b) b
        let total ← dmlLoop qre conn ti.indexColumns pkRows secondaryList b idxs 0
        match invalidator with
        | none => pure { fields := none, rows := [], rowsAffected := total, insertID := 0 }
        | some table => do
          invalidateLoop table pkRows
          pure { fields := none, rows := [], rowsAffected := total, insertID := 0 }

/-- QueryExecutor.execDMLPK. -/
def execDMLPK (qre : Qre) (conn : Conn) (invalidator : Option String) : M QueryResult := do
  let env ← askEnv
  let st ← getSt
  match env.buildValueList st.bindVars with
  | .error e => throwM e
  | .ok pkRows => execDMLPKRows qre conn pkRows invalidator

/-- QueryExecutor.execDMLSubquery. -/
def execDMLSubquery (qre : Qre) (conn : Conn) (invalidator : Option String) : M QueryResult := do
  let st ← getSt
  let (innerResult, bv2) ← directFetch conn qre.plan.subquery st.bindVars none
  setBindVars bv2
  execDMLPKRows qre conn innerResult.rows invalidator

/-! ## SET statements -/

/-- getInt64 of query_executor.go. -/
def getInt64M (v : SetVal) : M Int :=
  match v with
  | .int i => pure i
  | _ => throwM (.tabletError .fail "expecting int")

/-- getFloat64 of query_executor.go (accepts int64 or float64). -/
def getFloat64M (v : SetVal) : M Rat :=
  match v with
  | .int i => pure (i : Rat)
  | .float q => pure q
  | _ => throwM (.tabletError .fail "expecting number")

/-- Go conversion of a numeric value to int64: truncation toward zero. -/
def ratTruncToInt (q : Rat) : Int := q.num.tdiv (q.den : Int)

/-- getDuration of query_executor.go: time.Duration(getFloat64(v) * 1e9),
in nanoseconds. -/
def getDurationM (v : SetVal) : M Int := do
  let f ← getFloat64M v
  pure (ratTruncToInt (f * 1000000000))

/-- QueryExecutor.execSet: dispatch on plan.SetKey.  Recognized sized
tunables are range-checked (panicking with ErrFail naming the variable and
the value) before being stored; collaborator-side tunables are recorded as
events; an unrecognized key is passed through to the backend via
directFetch on a pool connection. -/
def execSet (qre : Qre) : M QueryResult :=
  if qre.plan.setKey = "vt_pool_size" then do
    let v ← getInt64M qre.plan.setValue
    emitM (.poolSetCapacity "connPool" v)
    pure {}
  else if qre.plan.setKey = "vt_stream_pool_size" then do
    let v ← getInt64M qre.plan.setValue
    emitM (.poolSetCapacity "streamConnPool" v)
    pure {}
  else if qre.plan.setKey = "vt_transaction_cap" then do
    let v ← getInt64M qre.plan.setValue
    emitM (.poolSetCapacity "txPool" v)
    pure {}
  else if qre.plan.setKey = "vt_transaction_timeout" then do
    let d ← getDurationM qre.plan.setValue
    emitM (.setTimeoutEv "txPool" d)
    pure {}
  else if qre.plan.setKey = "vt_schema_reload_time" then do
    let d ← getDurationM qre.plan.setValue
    emitM (.setReloadTime d)
    pure {}
  else if qre.plan.setKey = "vt_query_cache_size" then do
    let v ← getInt64M qre.plan.setValue
    emitM (.setQueryCacheSize v)
    pure {}
  else if qre.plan.setKey = "vt_max_result_size" then do
    let v ← getInt64M qre.plan.setValue
    if v < 1 then
      throwM (.tabletError .fail ("vt_max_result_size out of range " ++ toString v))
    else do
      modifySt (fun s => { s with maxResultSize := v })
      pure {}
  else if qre.plan.setKey = "vt_max_dml_rows" then do
    let v ← getInt64M qre.plan.setValue
    if v < 1 then
      throwM (.tabletError .fail ("vt_max_dml_rows out of range " ++ toString v))
    else do
      modifySt (fun s => { s with maxDMLRows := v })
      pure {}
  else if qre.plan.setKey = "vt_stream_buffer_size" then do
    let v ← getInt64M qre.plan.setValue
    if v < 1024 then
      throwM (.tabletError .fail ("vt_stream_buffer_size out of range " ++ toString v))
    else do
      modifySt (fun s => { s with streamBufferSize := v })
      pure {}
  else if qre.plan.setKey = "vt_query_timeout" then do
    let d ← getDurationM qre.plan.setValue
    emitM (.setTimeoutEv "query" d)
    pure {}
  else if qre.plan.setKey = "vt_idle_timeout" then do
    let d ← getDurationM qre.plan.setValue
    emitM (.poolSetIdleTimeout d)
    emitM (.poolSetIdleTimeout d)
    emitM (.poolSetIdleTimeout d)
    pure {}
  else if qre.plan.setKey = "vt_spot_check_ratio" then do
    let f ← getFloat64M qre.plan.setValue
    modifySt (fun s => { s with spotCheckFreq := ratTruncToInt (f * (spotCheckMultiplier : Rat)) })
    pure {}
  else if qre.plan.setKey = "vt_strict_mode" then do
    let v ← getInt64M qre.plan.setValue
    modifySt (fun s => { s with strictMode := v })
    pure {}
  else if qre.plan.setKey = "vt_txpool_timeout" then do
    let d ← getDurationM qre.plan.setValue
    emitM (.setTimeoutEv "txPoolAcquire" d)
    pure {}
  else do
    let conn ← getConn
    withRecycle (do
      let st ← getSt
      let (r, bv2) ← directFetch conn qre.plan.fullQuery st.bindVars none
      setBindVars bv2
      pure r)

/-! ## Permissions, DDL, auto-commit, Execute -/

/-- QueryExecutor.checkPermissions: skipped entirely for the
context.Background() sentinel; otherwise evaluate the plan's query rules on
(remoteAddr, username, bindVars) — QR_FAIL panics with a terminal ErrFail,
QR_FAIL_RETRY with a retriable ErrRetry, each naming the matched rule —
then perform the table-ACL check (terminal in strictTableAcl mode, logged
otherwise). -/
def checkPermissions (qre : Qre) : M Unit := do
  let env ← askEnv
  if env.ctxBackground then pure ()
  else do
    let ci := match env.callInfo with
      | some p => p
      | none => ("", "")
    let remoteAddr := ci.1
    let username := ci.2
    let st ← getSt
    emitM (.rulesGetAction remoteAddr username)
    let ad := env.getActionRes remoteAddr username st.bindVars
    match ad.1 with
    | .qrFail => throwM (.tabletError .fail ("Query disallowed due to rule: " ++ ad.2))
    | .qrFailRetry => throwM (.tabletError .retry ("Query disallowed due to rule: " ++ ad.2))
    | .qrContinue =>
      match qre.plan.authorized with
      | none => pure ()
      | some members =>
        if !(members.contains username) then do
          let errStr := "table acl error: \"" ++ username ++ "\" cannot run "
            ++ qre.plan.planId.goName ++ " on table \"" ++ qre.plan.tableName ++ "\""
          if env.strictTableAcl then
            throwM (.tabletError .fail errStr)
          else
            emitM (.aclLogError errStr)
        else pure ()

/-- QueryExecutor.execDDL: parse the DDL (rejecting what is not
understood), Begin an implicit transaction with a deferred SafeCommit, run
the raw SQL on the pinned connection (deferred Recycle), then notify the
schema service of the dropped and/or created table names. -/
def execDDL (qre : Qre) : M QueryResult := do
  let env ← askEnv
  let ddlPlan := env.ddlParse qre.query
  if ddlPlan.action = "" then throwM (.tabletError .fail "DDL is not understood")
  else do
    let txid ← txBeginM
    withEventAfter (.txSafeCommit txid) (do
      let conn ← txGetM txid
      withRecycle (do
        let result ← execSQL conn qre.query false
        if ddlPlan.tableName ≠ "" ∧ ddlPlan.tableName ≠ ddlPlan.newName then
          emitM (.schemaDrop ddlPlan.tableName)
        else pure ()
        if ddlPlan.newName ≠ "" then
          emitM (.schemaCreateOrUpdate ddlPlan.newName)
        else pure ()
        pure result))

/-- The invalidator creation shared by the in-transaction branch of Execute
and by execDmlAutoCommit: conn.DirtyKeys(tableName) when the plan's table
has a cache. -/
def mkInvalidator (qre : Qre) (conn : Conn) : M (Option String) :=
  match qre.plan.tableInfo with
  | some ti =>
    if ti.cacheType ≠ CacheType.cacheNone then do
      emitM (.dirtyKeys qre.plan.tableName)
      pure (some qre.plan.tableName)
    else pure none
  | none => pure none

/-- The PLAN_PASS_DML branch shared by the in-transaction dispatch and by
execDmlAutoCommit: reject with ErrFail "DML too complex" when strict mode
is on, otherwise pass FullQuery through via directFetch. -/
def execPassDmlBranch (qre : Qre) (conn : Conn) : M QueryResult := do
  let st ← getSt
  if st.strictMode ≠ 0 then throwM (.tabletError .fail "DML too complex")
  else do
    let (r, bv2) ← directFetch conn qre.plan.fullQuery st.bindVars none
    setBindVars bv2
    pure r

/-- The body of execDmlAutoCommit after Begin: get the pinned connection
(deferred Recycle), create the invalidator, dispatch the DML plan. -/
def execDmlAutoCommitInner (qre : Qre) (txid : Int) : M QueryResult := do
  let conn ← txGetM txid
  withRecycle (do
    let invalidator ← mkInvalidator qre conn
    match qre.plan.planId with
    | .PASS_DML => execPassDmlBranch qre conn
    | .INSERT_PK => execInsertPK qre conn
    | .INSERT_SUBQUERY => execInsertSubquery qre conn
    | .DML_PK => execDMLPK qre conn invalidator
    | .DML_SUBQUERY => execDMLSubquery qre conn invalidator
    | _ => throwM (.tabletError .fatal ("unsupported query: " ++ qre.query)))

/-- The recover-based defer of execDmlAutoCommit: on normal return Commit
and log the synthetic "commit"; on a panic unwind Rollback, log the
synthetic "rollback", and re-raise the original panic value unchanged. -/
def commitOrRollback {α : Type} (txid : Int) (body : M α) : M α := fun env s =>
  match body env s with
  | (.ok a, s2, t) => (.ok a, s2, t ++ [.txCommit txid, .rewritten "commit"])
  | (.error e, s2, t) => (.error e, s2, t ++ [.txRollback txid, .rewritten "rollback"])

/-- QueryExecutor.execDmlAutoCommit: Begin (logging a synthetic "begin"),
run the in-transaction DML branch, Commit on normal return and Rollback on
panic unwind (re-raising the underlying panic). -/
def execDmlAutoCommit (qre : Qre) : M QueryResult := do
  let txid ← txBeginM
  emitM (.rewritten "begin")
  commitOrRollback txid (execDmlAutoCommitInner qre txid)

/-- QueryExecutor.Execute (the per-request stats bookkeeping of the
prologue and epilogue, which is time-based only, is not modelled). -/
def Execute (qre : Qre) : M QueryResult := do
  checkPermissions qre
  if qre.plan.planId = PlanId.DDL then execDDL qre
  else if qre.transactionID ≠ 0 then do
    let conn ← txGetM qre.transactionID
    withRecycle (do
      emitM (.recordQuery qre.query)
      let invalidator ← mkInvalidator qre conn
      match qre.plan.planId with
      | .PASS_DML => execPassDmlBranch qre conn
      | .INSERT_PK => execInsertPK qre conn
      | .INSERT_SUBQUERY => execInsertSubquery qre conn
      | .DML_PK => execDMLPK qre conn invalidator
      | .DML_SUBQUERY => execDMLSubquery qre conn invalidator
      | .OTHER => execSQL conn qre.query true
      | _ => execDirect qre conn)
  else
    match qre.plan.planId with
    | .PASS_SELECT =>
      if qre.plan.reasonLock then throwM (.tabletError .fail "Disallowed outside transaction")
      else execSelect qre
    | .PK_IN => execPKIN qre
    | .SELECT_SUBQUERY => execSubquery qre
    | .SET => execSet qre
    | .OTHER => do
      let conn ← getConn
      withRecycle (execSQL conn qre.query true)
    | _ => do
      let env ← askEnv
      if !env.enableAutoCommit then
        throwM (.tabletError .fatal ("unsupported query: " ++ qre.query))
      else execDmlAutoCommit qre

/-! ## Connection balance (claim C1 infrastructure) -/

/-- Is this event a successful pool / transaction-pool Get? -/
def isGetEv : Event → Bool
  | .getPool => true
  | .getTx _ => true
  | _ => false

/-- Is this event a PooledConn.Recycle? -/
def isRecycleEv : Event → Bool
  | .recycle => true
  | _ => false

def getCount (t : List Event) : Nat := t.countP isGetEv

def recycleCount (t : List Event) : Nat := t.countP isRecycleEv

theorem getCount_append (a b : List Event) : getCount (a ++ b) = getCount a + getCount b := by
  simp [getCount, List.countP_append]

theorem recycleCount_append (a b : List Event) :
    recycleCount (a ++ b) = recycleCount a + recycleCount b := by
  simp [recycleCount, List.countP_append]

/-- Every successful Get is matched by exactly one Recycle in the trace. -/
def ConnBalanced (t : List Event) : Prop := getCount t = recycleCount t

/-- The computation emits no Get and no Recycle events at all (on any
environment and state, on both the normal and the panic exit). -/
def NoConnEv {α : Type} (m : M α) : Prop :=
  ∀ env s, getCount (m env s).2.2 = 0 ∧ recycleCount (m env s).2.2 = 0

/-- The computation's trace is connection-balanced (on any environment and
state, on both the normal and the panic exit). -/
def CB {α : Type} (m : M α) : Prop := ∀ env s, ConnBalanced (m env s).2.2

theorem bindM_eq {α β : Type} (m : M α) (k : α → M β) : m >>= k = M.bind m k := rfl

theorem pureM_eq {α : Type} (a : α) : (pure a : M α) = M.pure a := rfl

theorem cb_of_nc {α : Type} {m : M α} (h : NoConnEv m) : CB m := by
  intro env s
  have h1 := h env s
  unfold ConnBalanced
  omega

theorem nc_bind {α β : Type} {m : M α} {k : α → M β} (hm : NoConnEv m)
    (hk : ∀ a, NoConnEv (k a)) : NoConnEv (m >>= k) := by
  intro env s
  have h1 := hm env s
  rw [bindM_eq]
  unfold M.bind
  rcases hms : m env s with ⟨r, s1, t1⟩
  rw [hms] at h1
  cases r with
  | error e => exact h1
  | ok a =>
    have h2 := hk a env s1
    rcases hks : k a env s1 with ⟨r2, s2, t2⟩
    rw [hks] at h2
    dsimp only
    rw [hks]
    dsimp only at h1 h2 ⊢
    obtain ⟨h1a, h1b⟩ := h1
    obtain ⟨h2a, h2b⟩ := h2
    simp only [getCount_append, recycleCount_append]
    omega

theorem cb_bind {α β : Type} {m : M α} {k : α → M β} (hm : CB m)
    (hk : ∀ a, CB (k a)) : CB (m >>= k) := by
  intro env s
  have h1 := hm env s
  rw [bindM_eq]
  unfold M.bind
  rcases hms : m env s with ⟨r, s1, t1⟩
  rw [hms] at h1
  cases r with
  | error e => exact h1
  | ok a =>
    have h2 := hk a env s1
    rcases hks : k a env s1 with ⟨r2, s2, t2⟩
    rw [hks] at h2
    dsimp only
    rw [hks]
    unfold ConnBalanced at h1 h2 ⊢
    dsimp only at h1 h2 ⊢
    simp only [getCount_append, recycleCount_append]
    omega

theorem nc_pure {α : Type} (a : α) : NoConnEv (pure a : M α) := by
  intro env s
  exact ⟨rfl, rfl⟩

theorem nc_throw {α : Type} (e : Panic) : NoConnEv (throwM e : M α) := by
  intro env s
  exact ⟨rfl, rfl⟩

theorem nc_emit (ev : Event) (h1 : isGetEv ev = false) (h2 : isRecycleEv ev = false) :
    NoConnEv (emitM ev) := by
  intro env s
  simp [emitM, getCount, recycleCount, List.countP_cons, List.countP_nil, h1, h2]

theorem nc_askEnv : NoConnEv askEnv := by
  intro env s
  exact ⟨rfl, rfl⟩

theorem nc_getSt : NoConnEv getSt := by
  intro env s
  exact ⟨rfl, rfl⟩

theorem nc_modifySt (f : St → St) : NoConnEv (modifySt f) := by
  intro env s
  exact ⟨rfl, rfl⟩

theorem nc_setBindVars (bv : BindMap) : NoConnEv (setBindVars bv) :=
  nc_modifySt _

theorem nc_ite {α : Type} (c : Prop) [Decidable c] {m1 m2 : M α} (h1 : NoConnEv m1)
    (h2 : NoConnEv m2) : NoConnEv (if c then m1 else m2) := by
  by_cases hc : c
  · simpa [hc] using h1
  · simpa [hc] using h2

theorem cb_ite {α : Type} (c : Prop) [Decidable c] {m1 m2 : M α} (h1 : CB m1)
    (h2 : CB m2) : CB (if c then m1 else m2) := by
  by_cases hc : c
  · simpa [hc] using h1
  · simpa [hc] using h2

theorem getCount_nonget (ev : Event) (h : isGetEv ev = false) : getCount [ev] = 0 := by
  simp [getCount, List.countP_cons, List.countP_nil, h]

theorem recycleCount_nonrec (ev : Event) (h : isRecycleEv ev = false) :
    recycleCount [ev] = 0 := by
  simp [recycleCount, List.countP_cons, List.countP_nil, h]

theorem nc_withEventAfter {α : Type} (ev : Event) {m : M α} (h1 : isGetEv ev = false)
    (h2 : isRecycleEv ev = false) (hm : NoConnEv m) : NoConnEv (withEventAfter ev m) := by
  intro env s
  have h := hm env s
  unfold withEventAfter
  rcases hms : m env s with ⟨r, s1, t1⟩
  rw [hms] at h
  dsimp only at h ⊢
  obtain ⟨ha, hb⟩ := h
  rw [getCount_append, recycleCount_append, getCount_nonget ev h1, recycleCount_nonrec ev h2]
  omega

theorem cb_withEventAfter {α : Type} (ev : Event) {m : M α} (h1 : isGetEv ev = false)
    (h2 : isRecycleEv ev = false) (hm : CB m) : CB (withEventAfter ev m) := by
  intro env s
  have h := hm env s
  unfold withEventAfter
  rcases hms : m env s with ⟨r, s1, t1⟩
  rw [hms] at h
  unfold ConnBalanced at h ⊢
  dsimp only at h ⊢
  rw [getCount_append, recycleCount_append, getCount_nonget ev h1, recycleCount_nonrec ev h2]
  omega
theorem nc_generateFinalSql (pq : PQ) (bv : BindMap) (bsc : Option String) :
    NoConnEv (generateFinalSql pq bv bsc) := by
  intro env s
  unfold generateFinalSql
  dsimp only
  cases h : env.generateQuery pq (bmSet bv "#maxLimit" (.int (s.maxResultSize + 1))) with
  | error e => exact ⟨rfl, rfl⟩
  | ok sql0 => exact ⟨rfl, rfl⟩

theorem nc_connExec (sql : String) (maxrows : Int) (wf : Bool) :
    NoConnEv (connExec sql maxrows wf) := by
  intro env s
  unfold connExec
  dsimp only
  cases h : env.execResp s.execIdx with
  | error e => exact ⟨rfl, rfl⟩
  | ok r =>
    by_cases hc : maxrows < (r.rows.length : Int)
    · simp only [hc, if_true]
      exact ⟨rfl, rfl⟩
    · simp only [hc, if_false]
      exact ⟨rfl, rfl⟩

theorem nc_execSQLNoPanic (conn : Conn) (sql : String) (wf : Bool) :
    NoConnEv (execSQLNoPanic conn sql wf) := by
  unfold execSQLNoPanic
  apply nc_bind nc_getSt
  intro st
  apply nc_bind (nc_connExec sql st.maxResultSize wf)
  intro r
  apply nc_bind (nc_emit (.rewritten sql) rfl rfl)
  intro _
  exact nc_pure r

theorem nc_execSQL (conn : Conn) (sql : String) (wf : Bool) : NoConnEv (execSQL conn sql wf) := by
  unfold execSQL
  apply nc_bind (nc_execSQLNoPanic conn sql true)
  intro r
  cases r with
  | error e => exact nc_throw e
  | ok q => exact nc_pure q

theorem nc_directFetch (conn : Conn) (pq : PQ) (bv : BindMap) (bsc : Option String) :
    NoConnEv (directFetch conn pq bv bsc) := by
  unfold directFetch
  apply nc_bind (nc_generateFinalSql pq bv bsc)
  intro p
  obtain ⟨sql, bv2⟩ := p
  apply nc_bind (nc_execSQL conn sql false)
  intro r
  exact nc_pure (r, bv2)

theorem nc_fullFetch (conn : Conn) (pq : PQ) (bv : BindMap) (bsc : Option String) :
    NoConnEv (fullFetch conn pq bv bsc) := by
  unfold fullFetch
  apply nc_bind (nc_generateFinalSql pq bv bsc)
  intro p
  obtain ⟨sql, bv2⟩ := p
  apply nc_bind (nc_execSQL conn sql true)
  intro r
  exact nc_pure (r, bv2)

theorem nc_mustVerify : NoConnEv mustVerify := by
  intro env s
  exact ⟨rfl, rfl⟩

theorem nc_txBeginM : NoConnEv txBeginM := by
  intro env s
  unfold txBeginM
  dsimp only
  cases h : env.txBeginRes s.txBeginIdx with
  | error e => exact ⟨rfl, rfl⟩
  | ok txid => exact ⟨rfl, rfl⟩

theorem getCount_getev (ev : Event) (h : isGetEv ev = true) : getCount [ev] = 1 := by
  simp [getCount, List.countP_cons, List.countP_nil, h]

theorem recycleCount_recycle : recycleCount [Event.recycle] = 1 := by
  simp [recycleCount, List.countP_cons, List.countP_nil, isRecycleEv]

/-- Runs of getConn: either one successful Get or a panic with no event. -/
theorem getConn_run (env : Env) (s : St) :
    getConn env s = (.ok (), { s with poolGetIdx := s.poolGetIdx + 1 }, [Event.getPool]) ∨
    ∃ e, getConn env s = (.error e, { s with poolGetIdx := s.poolGetIdx + 1 }, []) := by
  unfold getConn
  rw [bindM_eq]
  unfold M.bind poolGetRaw
  dsimp only
  cases h : env.poolGet s.poolGetIdx with
  | none => left; rfl
  | some e =>
    right
    cases e with
    | closed => exact ⟨_, rfl⟩
    | other msg => exact ⟨_, rfl⟩

/-- Runs of txGetM: either one successful Get or a panic with no event. -/
theorem txGetM_run (txid : Int) (env : Env) (s : St) :
    txGetM txid env s = (.ok (), s, [Event.getTx txid]) ∨
    ∃ p, txGetM txid env s = (.error p, s, []) := by
  unfold txGetM
  cases h : env.txPoolGet txid with
  | none => left; rfl
  | some p => right; exact ⟨p, rfl⟩

/-- The acquire-then-deferred-Recycle pattern is balanced whenever the body
is: on successful acquire the trace is one Get, the body's trace, one
Recycle; on a failed acquire it is empty. -/
theorem cb_acquire_withRecycle {α : Type} {acq : M Conn}
    (hacq : ∀ env s, (∃ s2 ev, isGetEv ev = true ∧ isRecycleEv ev = false ∧
        acq env s = (.ok (), s2, [ev])) ∨ (∃ p s2, acq env s = (.error p, s2, [])))
    {k : Conn → M α} (hk : ∀ c, CB (k c)) : CB (acq >>= fun c => withRecycle (k c)) := by
  intro env s
  rw [bindM_eq]
  unfold M.bind
  rcases hacq env s with ⟨s2, ev, hev1, hev2, heq⟩ | ⟨p, s2, heq⟩
  · rw [heq]
    dsimp only
    unfold withRecycle withEventAfter
    have hb := hk () env s2
    rcases hkk : k () env s2 with ⟨rk, sk, tk⟩
    rw [hkk] at hb
    unfold ConnBalanced at hb ⊢
    dsimp only at hb ⊢
    rw [getCount_append, recycleCount_append, getCount_append, recycleCount_append,
      getCount_getev ev hev1, recycleCount_nonrec ev hev2,
      getCount_nonget Event.recycle rfl, recycleCount_recycle]
    omega
  · rw [heq]
    exact rfl

theorem cb_getConn_withRecycle {α : Type} {k : Conn → M α} (hk : ∀ c, CB (k c)) :
    CB (getConn >>= fun c => withRecycle (k c)) := by
  apply cb_acquire_withRecycle _ hk
  intro env s
  rcases getConn_run env s with h | ⟨e, h⟩
  · exact Or.inl ⟨_, Event.getPool, rfl, rfl, h⟩
  · exact Or.inr ⟨e, _, h⟩

theorem cb_txGet_withRecycle {α : Type} (txid : Int) {k : Conn → M α} (hk : ∀ c, CB (k c)) :
    CB (txGetM txid >>= fun c => withRecycle (k c)) := by
  apply cb_acquire_withRecycle _ hk
  intro env s
  rcases txGetM_run txid env s with h | ⟨p, h⟩
  · exact Or.inl ⟨_, Event.getTx txid, rfl, rfl, h⟩
  · exact Or.inr ⟨p, _, h⟩

/-- Runs of poolGetRaw. -/
theorem poolGetRaw_run (env : Env) (s : St) :
    poolGetRaw env s =
      (.ok (.ok ()), { s with poolGetIdx := s.poolGetIdx + 1 }, [Event.getPool]) ∨
    ∃ e, poolGetRaw env s = (.ok (.error e), { s with poolGetIdx := s.poolGetIdx + 1 }, []) := by
  unfold poolGetRaw
  dsimp only
  cases h : env.poolGet s.poolGetIdx with
  | none => left; rfl
  | some e => right; exact ⟨e, rfl⟩

theorem cb_qFetchLeader (sql : String) : CB (qFetchLeader sql) := by
  intro env s
  unfold qFetchLeader
  rw [bindM_eq]
  unfold M.bind
  rcases poolGetRaw_run env s with h | ⟨e, h⟩
  · rw [h]
    dsimp only
    unfold withEventAfter withRecycle withEventAfter
    rcases hex : execSQLNoPanic () sql false env { s with poolGetIdx := s.poolGetIdx + 1 } with
      ⟨r3, s3, t3⟩
    have hnc := nc_execSQLNoPanic () sql false env { s with poolGetIdx := s.poolGetIdx + 1 }
    rw [hex] at hnc
    dsimp only at hnc
    obtain ⟨ha, hb⟩ := hnc
    unfold ConnBalanced
    dsimp only
    rw [getCount_append, recycleCount_append, getCount_append, recycleCount_append,
      getCount_append, recycleCount_append, getCount_getev Event.getPool rfl,
      recycleCount_nonrec Event.getPool rfl, getCount_nonget Event.recycle rfl,
      recycleCount_recycle, getCount_nonget (Event.consBroadcast sql) rfl,
      recycleCount_nonrec (Event.consBroadcast sql) rfl, ha, hb]
  · rw [h]
    dsimp only
    unfold withEventAfter
    rfl

theorem cb_qFetch (pq : PQ) (bv : BindMap) : CB (qFetch pq bv) := by
  unfold qFetch
  apply cb_bind (cb_of_nc (nc_generateFinalSql pq bv none))
  intro p
  obtain ⟨sql, bv2⟩ := p
  apply cb_bind (cb_of_nc nc_askEnv)
  intro env0
  apply cb_ite
  · apply cb_bind (cb_qFetchLeader sql)
    intro r
    cases r with
    | error e => exact cb_of_nc (nc_throw e)
    | ok q => exact cb_of_nc (nc_pure (q, bv2))
  · apply cb_of_nc
    apply nc_bind (nc_emit (.consFollow sql) rfl rfl)
    intro _
    cases h : env0.consResult sql with
    | error e => exact nc_throw e
    | ok r => exact nc_pure (r, bv2)

theorem cb_spotCheck (qre : Qre) (rcresult : RCResult) (pk : Row) :
    CB (spotCheck qre rcresult pk) := by
  unfold spotCheck
  apply cb_bind (cb_of_nc (nc_emit .spotCheckInc rfl rfl))
  intro _
  cases qre.plan.tableInfo with
  | none => exact cb_of_nc (nc_throw _)
  | some ti =>
    apply cb_bind (cb_qFetch qre.plan.outerQuery _)
    intro p
    obtain ⟨resultFromdb, bv2⟩ := p
    dsimp only
    apply cb_ite
    · exact cb_of_nc (nc_emit .launchRecheck rfl rfl)
    · exact cb_of_nc (nc_pure ())

theorem cb_fetchHitsLoop (qre : Qre) (rc : String → RCResult) (l : List Row) :
    CB (fetchHitsLoop qre rc l) := by
  induction l with
  | nil =>
    simp only [fetchHitsLoop]
    exact cb_of_nc (nc_pure _)
  | cons pk rest ih =>
    simp only [fetchHitsLoop]
    apply cb_bind (cb_of_nc nc_askEnv)
    intro env0
    dsimp only
    cases hrow : (rc (env0.buildKey pk)).row with
    | some row =>
      apply cb_bind (cb_of_nc nc_mustVerify)
      intro mv
      apply cb_ite
      · apply cb_bind (cb_spotCheck qre (rc (env0.buildKey pk)) pk)
        intro _
        apply cb_bind ih
        intro triple
        exact cb_of_nc (nc_pure _)
      · apply cb_bind (cb_of_nc (nc_pure ()))
        intro _
        apply cb_bind ih
        intro triple
        exact cb_of_nc (nc_pure _)
    | none =>
      apply cb_bind ih
      intro triple
      exact cb_of_nc (nc_pure _)

theorem nc_dbRowsLoop (qre : Qre) (ti : TableInfo) (rc : String → RCResult) (l : List Row) :
    NoConnEv (dbRowsLoop qre ti rc l) := by
  induction l with
  | nil =>
    simp only [dbRowsLoop]
    exact nc_pure _
  | cons row rest ih =>
    simp only [dbRowsLoop]
    apply nc_bind nc_askEnv
    intro env0
    apply nc_bind
    · exact nc_emit _ rfl rfl
    · intro _
      apply nc_bind ih
      intro more
      exact nc_pure _

theorem cb_fetchAssembledRows (qre : Qre) (pkRows : List Row) :
    CB (fetchAssembledRows qre pkRows) := by
  unfold fetchAssembledRows
  cases qre.plan.tableInfo with
  | none => exact cb_of_nc (nc_throw _)
  | some tableInfo =>
    apply cb_bind (cb_of_nc nc_askEnv)
    intro env0
    apply cb_bind
    · exact cb_of_nc (nc_emit _ rfl rfl)
    · intro _
      apply cb_bind (cb_fetchHitsLoop qre _ pkRows)
      intro triple
      obtain ⟨rows, missingRows, hits⟩ := triple
      dsimp only
      apply cb_ite
      · apply cb_bind (cb_qFetch qre.plan.outerQuery _)
        intro p
        obtain ⟨resultFromdb, bv2⟩ := p
        dsimp only
        apply cb_bind (cb_of_nc (nc_dbRowsLoop qre tableInfo _ resultFromdb.rows))
        intro newRows
        apply cb_bind (cb_of_nc (nc_pure _))
        intro y
        obtain ⟨allRows, absent, misses⟩ := y
        apply cb_bind
        · exact cb_of_nc (nc_emit _ rfl rfl)
        · intro _
          exact cb_of_nc (nc_pure _)
      · apply cb_bind (cb_of_nc (nc_pure _))
        intro y
        obtain ⟨allRows, absent, misses⟩ := y
        apply cb_bind
        · exact cb_of_nc (nc_emit _ rfl rfl)
        · intro _
          exact cb_of_nc (nc_pure _)

theorem cb_fetchMulti (qre : Qre) (pkRows : List Row) (limit : Int) :
    CB (fetchMulti qre pkRows limit) := by
  unfold fetchMulti
  cases qre.plan.fields with
  | none => exact cb_of_nc (nc_throw _)
  | some fields =>
    apply cb_ite
    · exact cb_of_nc (nc_pure _)
    · apply cb_bind (cb_fetchAssembledRows qre pkRows)
      intro rows
      apply cb_ite
      · exact cb_of_nc (nc_pure _)
      · exact cb_of_nc (nc_pure _)

theorem cb_execPKIN (qre : Qre) : CB (execPKIN qre) := by
  unfold execPKIN
  apply cb_bind (cb_of_nc nc_askEnv)
  intro env0
  apply cb_bind (cb_of_nc nc_getSt)
  intro st
  cases h1 : env0.buildValueList st.bindVars with
  | error e => exact cb_of_nc (nc_throw e)
  | ok pkRows =>
    cases h2 : env0.getLimit st.bindVars with
    | error e => exact cb_of_nc (nc_throw e)
    | ok limit => exact cb_fetchMulti qre pkRows limit

theorem cb_execSubquery (qre : Qre) : CB (execSubquery qre) := by
  unfold execSubquery
  apply cb_bind (cb_of_nc nc_getSt)
  intro st
  apply cb_bind (cb_qFetch qre.plan.subquery st.bindVars)
  intro p
  obtain ⟨innerResult, bv2⟩ := p
  apply cb_bind (cb_of_nc (nc_setBindVars bv2))
  intro _
  exact cb_fetchMulti qre innerResult.rows (-1)

theorem nc_execDirect (qre : Qre) (conn : Conn) : NoConnEv (execDirect qre conn) := by
  unfold execDirect
  cases qre.plan.fields with
  | some f =>
    apply nc_bind nc_getSt
    intro st
    apply nc_bind (nc_directFetch conn qre.plan.fullQuery st.bindVars none)
    intro p
    obtain ⟨r, bv2⟩ := p
    apply nc_bind (nc_setBindVars bv2)
    intro _
    exact nc_pure _
  | none =>
    apply nc_bind nc_getSt
    intro st
    apply nc_bind (nc_fullFetch conn qre.plan.fullQuery st.bindVars none)
    intro p
    obtain ⟨r, bv2⟩ := p
    apply nc_bind (nc_setBindVars bv2)
    intro _
    exact nc_pure _

theorem cb_execSelect (qre : Qre) : CB (execSelect qre) := by
  unfold execSelect
  cases qre.plan.fields with
  | some f =>
    apply cb_bind (cb_of_nc nc_getSt)
    intro st
    apply cb_bind (cb_qFetch qre.plan.fullQuery st.bindVars)
    intro p
    obtain ⟨r, bv2⟩ := p
    apply cb_bind (cb_of_nc (nc_setBindVars bv2))
    intro _
    exact cb_of_nc (nc_pure _)
  | none =>
    apply cb_getConn_withRecycle
    intro c
    apply cb_of_nc
    apply nc_bind nc_getSt
    intro st
    apply nc_bind (nc_fullFetch c qre.plan.fullQuery st.bindVars none)
    intro p
    obtain ⟨r, bv2⟩ := p
    apply nc_bind (nc_setBindVars bv2)
    intro _
    exact nc_pure _

theorem nc_execInsertPKRows (qre : Qre) (conn : Conn) (pkRows : List Row) :
    NoConnEv (execInsertPKRows qre conn pkRows) := by
  unfold execInsertPKRows
  apply nc_bind nc_askEnv
  intro env0
  apply nc_bind nc_getSt
  intro st
  cases h : env0.buildSecondaryList pkRows st.bindVars with
  | error e => exact nc_throw e
  | ok secondaryList =>
    apply nc_bind
    · exact nc_emit _ rfl rfl
    · intro _
      apply nc_bind nc_getSt
      intro st2
      apply nc_bind (nc_directFetch conn qre.plan.outerQuery st2.bindVars _)
      intro p
      obtain ⟨r, bv2⟩ := p
      apply nc_bind (nc_setBindVars bv2)
      intro _
      exact nc_pure _

theorem nc_execInsertPK (qre : Qre) (conn : Conn) : NoConnEv (execInsertPK qre conn) := by
  unfold execInsertPK
  apply nc_bind nc_askEnv
  intro env0
  apply nc_bind nc_getSt
  intro st
  cases h : env0.buildValueList st.bindVars with
  | error e => exact nc_throw e
  | ok pkRows => exact nc_execInsertPKRows qre conn pkRows

theorem nc_execInsertSubquery (qre : Qre) (conn : Conn) :
    NoConnEv (execInsertSubquery qre conn) := by
  unfold execInsertSubquery
  apply nc_bind nc_getSt
  intro st
  apply nc_bind (nc_directFetch conn qre.plan.subquery st.bindVars none)
  intro p
  obtain ⟨innerResult, bv2⟩ := p
  apply nc_bind (nc_setBindVars bv2)
  intro _
  cases innerResult.rows with
  | nil => exact nc_pure _
  | cons firstRow rest =>
    apply nc_ite
    · exact nc_throw _
    · apply nc_bind nc_askEnv
      intro env0
      cases h : env0.validateRow
          (env0.applyFilterWithPKDefaults qre.plan.subqueryPKColumns firstRow) with
      | error e => exact nc_throw e
      | ok _ =>
        apply nc_bind nc_getSt
        intro st3
        apply nc_bind (nc_setBindVars _)
        intro _
        exact nc_execInsertPKRows qre conn _

theorem nc_dmlLoop (qre : Qre) (conn : Conn) (cols : List String) (pkRows : List Row)
    (secondaryList : Option (List Row)) (b : Nat) (idxs : List Nat) :
    ∀ acc, NoConnEv (dmlLoop qre conn cols pkRows secondaryList b idxs acc) := by
  induction idxs with
  | nil =>
    intro acc
    simp only [dmlLoop]
    exact nc_pure _
  | cons i rest ih =>
    intro acc
    simp only [dmlLoop]
    apply nc_bind
    · unfold dmlStep
      apply nc_bind nc_askEnv
      intro env0
      apply nc_bind
      · exact nc_emit _ rfl rfl
      · intro _
        apply nc_bind nc_getSt
        intro st
        apply nc_bind (nc_setBindVars _)
        intro _
        apply nc_bind (nc_directFetch conn qre.plan.outerQuery _ _)
        intro p
        obtain ⟨r, bv2⟩ := p
        apply nc_bind (nc_setBindVars bv2)
        intro _
        exact nc_pure _
    · intro ra
      exact ih _

theorem nc_invalidateLoop (table : String) (l : List Row) :
    NoConnEv (invalidateLoop table l) := by
  induction l with
  | nil =>
    simp only [invalidateLoop]
    exact nc_pure _
  | cons pk rest ih =>
    simp only [invalidateLoop]
    apply nc_bind nc_askEnv
    intro env0
    apply nc_bind
    · exact nc_emit _ rfl rfl
    · intro _
      exact ih

theorem nc_execDMLPKRows (qre : Qre) (conn : Conn) (pkRows : List Row)
    (invalidator : Option String) : NoConnEv (execDMLPKRows qre conn pkRows invalidator) := by
  unfold execDMLPKRows
  apply nc_ite
  · exact nc_pure _
  · cases qre.plan.tableInfo with
    | none => exact nc_throw _
    | some ti =>
      apply nc_bind nc_askEnv
      intro env0
      apply nc_bind nc_getSt
      intro st
      cases h : env0.buildSecondaryList pkRows st.bindVars with
      | error e => exact nc_throw e
      | ok secondaryList =>
        apply nc_bind (nc_dmlLoop qre conn ti.indexColumns pkRows secondaryList _ _ 0)
        intro total
        cases invalidator with
        | none => exact nc_pure _
        | some table =>
          apply nc_bind (nc_invalidateLoop table pkRows)
          intro _
          exact nc_pure _

theorem nc_execDMLPK (qre : Qre) (conn : Conn) (invalidator : Option String) :
    NoConnEv (execDMLPK qre conn invalidator) := by
  unfold execDMLPK
  apply nc_bind nc_askEnv
  intro env0
  apply nc_bind nc_getSt
  intro st
  cases h : env0.buildValueList st.bindVars with
  | error e => exact nc_throw e
  | ok pkRows => exact nc_execDMLPKRows qre conn pkRows invalidator

theorem nc_execDMLSubquery (qre : Qre) (conn : Conn) (invalidator : Option String) :
    NoConnEv (execDMLSubquery qre conn invalidator) := by
  unfold execDMLSubquery
  apply nc_bind nc_getSt
  intro st
  apply nc_bind (nc_directFetch conn qre.plan.subquery st.bindVars none)
  intro p
  obtain ⟨innerResult, bv2⟩ := p
  apply nc_bind (nc_setBindVars bv2)
  intro _
  exact nc_execDMLPKRows qre conn innerResult.rows invalidator

theorem nc_getInt64M (v : SetVal) : NoConnEv (getInt64M v) := by
  unfold getInt64M
  cases v with
  | int i => exact nc_pure i
  | float q => exact nc_throw _
  | str s => exact nc_throw _
  | other => exact nc_throw _

theorem nc_getFloat64M (v : SetVal) : NoConnEv (getFloat64M v) := by
  unfold getFloat64M
  cases v with
  | int i => exact nc_pure _
  | float q => exact nc_pure q
  | str s => exact nc_throw _
  | other => exact nc_throw _

theorem nc_getDurationM (v : SetVal) : NoConnEv (getDurationM v) := by
  unfold getDurationM
  apply nc_bind (nc_getFloat64M v)
  intro f
  exact nc_pure _

theorem cb_execSet (qre : Qre) : CB (execSet qre) := by
  unfold execSet
  apply cb_ite
  · apply cb_bind (cb_of_nc (nc_getInt64M _)); intro v
    apply cb_bind
    · exact cb_of_nc (nc_emit _ rfl rfl)
    · intro _; exact cb_of_nc (nc_pure _)
  apply cb_ite
  · apply cb_bind (cb_of_nc (nc_getInt64M _)); intro v
    apply cb_bind
    · exact cb_of_nc (nc_emit _ rfl rfl)
    · intro _; exact cb_of_nc (nc_pure _)
  apply cb_ite
  · apply cb_bind (cb_of_nc (nc_getInt64M _)); intro v
    apply cb_bind
    · exact cb_of_nc (nc_emit _ rfl rfl)
    · intro _; exact cb_of_nc (nc_pure _)
  apply cb_ite
  · apply cb_bind (cb_of_nc (nc_getDurationM _)); intro d
    apply cb_bind
    · exact cb_of_nc (nc_emit _ rfl rfl)
    · intro _; exact cb_of_nc (nc_pure _)
  apply cb_ite
  · apply cb_bind (cb_of_nc (nc_getDurationM _)); intro d
    apply cb_bind
    · exact cb_of_nc (nc_emit _ rfl rfl)
    · intro _; exact cb_of_nc (nc_pure _)
  apply cb_ite
  · apply cb_bind (cb_of_nc (nc_getInt64M _)); intro v
    apply cb_bind
    · exact cb_of_nc (nc_emit _ rfl rfl)
    · intro _; exact cb_of_nc (nc_pure _)
  apply cb_ite
  · apply cb_bind (cb_of_nc (nc_getInt64M _)); intro v
    apply cb_ite
    · exact cb_of_nc (nc_throw _)
    · apply cb_bind (cb_of_nc (nc_modifySt _)); intro _
      exact cb_of_nc (nc_pure _)
  apply cb_ite
  · apply cb_bind (cb_of_nc (nc_getInt64M _)); intro v
    apply cb_ite
    · exact cb_of_nc (nc_throw _)
    · apply cb_bind (cb_of_nc (nc_modifySt _)); intro _
      exact cb_of_nc (nc_pure _)
  apply cb_ite
  · apply cb_bind (cb_of_nc (nc_getInt64M _)); intro v
    apply cb_ite
    · exact cb_of_nc (nc_throw _)
    · apply cb_bind (cb_of_nc (nc_modifySt _)); intro _
      exact cb_of_nc (nc_pure _)
  apply cb_ite
  · apply cb_bind (cb_of_nc (nc_getDurationM _)); intro d
    apply cb_bind
    · exact cb_of_nc (nc_emit _ rfl rfl)
    · intro _; exact cb_of_nc (nc_pure _)
  apply cb_ite
  · apply cb_bind (cb_of_nc (nc_getDurationM _)); intro d
    apply cb_bind
    · exact cb_of_nc (nc_emit _ rfl rfl)
    · intro _
      apply cb_bind
      · exact cb_of_nc (nc_emit _ rfl rfl)
      · intro _
        apply cb_bind
        · exact cb_of_nc (nc_emit _ rfl rfl)
        · intro _; exact cb_of_nc (nc_pure _)
  apply cb_ite
  · apply cb_bind (cb_of_nc (nc_getFloat64M _)); intro f
    apply cb_bind (cb_of_nc (nc_modifySt _)); intro _
    exact cb_of_nc (nc_pure _)
  apply cb_ite
  · apply cb_bind (cb_of_nc (nc_getInt64M _)); intro v
    apply cb_bind (cb_of_nc (nc_modifySt _)); intro _
    exact cb_of_nc (nc_pure _)
  apply cb_ite
  · apply cb_bind (cb_of_nc (nc_getDurationM _)); intro d
    apply cb_bind
    · exact cb_of_nc (nc_emit _ rfl rfl)
    · intro _; exact cb_of_nc (nc_pure _)
  · apply cb_getConn_withRecycle
    intro c
    apply cb_of_nc
    apply nc_bind nc_getSt
    intro st
    apply nc_bind (nc_directFetch c qre.plan.fullQuery st.bindVars none)
    intro p
    obtain ⟨r, bv2⟩ := p
    apply nc_bind (nc_setBindVars bv2)
    intro _
    exact nc_pure _

theorem nc_checkPermissions (qre : Qre) : NoConnEv (checkPermissions qre) := by
  unfold checkPermissions
  apply nc_bind nc_askEnv
  intro env0
  apply nc_ite
  · exact nc_pure ()
  · apply nc_bind nc_getSt
    intro st
    apply nc_bind
    · exact nc_emit _ rfl rfl
    · intro _
      dsimp only
      split
      · exact nc_throw _
      · exact nc_throw _
      · split
        · exact nc_pure ()
        · apply nc_ite
          · apply nc_ite
            · exact nc_throw _
            · exact nc_emit _ rfl rfl
          · exact nc_pure ()

theorem nc_mkInvalidator (qre : Qre) (conn : Conn) : NoConnEv (mkInvalidator qre conn) := by
  unfold mkInvalidator
  cases qre.plan.tableInfo with
  | none => exact nc_pure none
  | some ti =>
    apply nc_ite
    · apply nc_bind
      · exact nc_emit _ rfl rfl
      · intro _
        exact nc_pure _
    · exact nc_pure none

theorem nc_execPassDmlBranch (qre : Qre) (conn : Conn) :
    NoConnEv (execPassDmlBranch qre conn) := by
  unfold execPassDmlBranch
  apply nc_bind nc_getSt
  intro st
  apply nc_ite
  · exact nc_throw _
  · apply nc_bind (nc_directFetch conn qre.plan.fullQuery st.bindVars none)
    intro p
    obtain ⟨r, bv2⟩ := p
    apply nc_bind (nc_setBindVars bv2)
    intro _
    exact nc_pure _

theorem cb_execDDL (qre : Qre) : CB (execDDL qre) := by
  unfold execDDL
  apply cb_bind (cb_of_nc nc_askEnv)
  intro env0
  apply cb_ite
  · exact cb_of_nc (nc_throw _)
  · apply cb_bind (cb_of_nc nc_txBeginM)
    intro txid
    apply cb_withEventAfter (Event.txSafeCommit txid) rfl rfl
    apply cb_txGet_withRecycle
    intro c
    apply cb_of_nc
    apply nc_bind (nc_execSQL c qre.query false)
    intro result
    dsimp only
    apply nc_ite
    · apply nc_bind
      · exact nc_emit _ rfl rfl
      · intro _
        apply nc_ite
        · apply nc_bind
          · exact nc_emit _ rfl rfl
          · intro _
            exact nc_pure result
        · apply nc_bind (nc_pure ())
          intro _
          exact nc_pure result
    · apply nc_bind (nc_pure ())
      intro _
      apply nc_ite
      · apply nc_bind
        · exact nc_emit _ rfl rfl
        · intro _
          exact nc_pure result
      · apply nc_bind (nc_pure ())
        intro _
        exact nc_pure result

theorem cb_execDmlAutoCommitInner (qre : Qre) (txid : Int) :
    CB (execDmlAutoCommitInner qre txid) := by
  unfold execDmlAutoCommitInner
  apply cb_txGet_withRecycle
  intro c
  apply cb_of_nc
  apply nc_bind (nc_mkInvalidator qre c)
  intro invalidator
  cases hp : qre.plan.planId with
  | PASS_DML => exact nc_execPassDmlBranch qre c
  | INSERT_PK => exact nc_execInsertPK qre c
  | INSERT_SUBQUERY => exact nc_execInsertSubquery qre c
  | DML_PK => exact nc_execDMLPK qre c invalidator
  | DML_SUBQUERY => exact nc_execDMLSubquery qre c invalidator
  | PASS_SELECT => exact nc_throw _
  | PK_IN => exact nc_throw _
  | SELECT_SUBQUERY => exact nc_throw _
  | SET => exact nc_throw _
  | DDL => exact nc_throw _
  | OTHER => exact nc_throw _

theorem cb_commitOrRollback {α : Type} (txid : Int) {m : M α} (hm : CB m) :
    CB (commitOrRollback txid m) := by
  intro env s
  have h := hm env s
  unfold commitOrRollback
  rcases hms : m env s with ⟨r, s1, t1⟩
  rw [hms] at h
  unfold ConnBalanced at h ⊢
  cases r with
  | ok a =>
    dsimp only at h ⊢
    rw [getCount_append, recycleCount_append]
    have e1 : getCount [Event.txCommit txid, Event.rewritten "commit"] = 0 := rfl
    have e2 : recycleCount [Event.txCommit txid, Event.rewritten "commit"] = 0 := rfl
    omega
  | error e =>
    dsimp only at h ⊢
    rw [getCount_append, recycleCount_append]
    have e1 : getCount [Event.txRollback txid, Event.rewritten "rollback"] = 0 := rfl
    have e2 : recycleCount [Event.txRollback txid, Event.rewritten "rollback"] = 0 := rfl
    omega

theorem cb_execDmlAutoCommit (qre : Qre) : CB (execDmlAutoCommit qre) := by
  unfold execDmlAutoCommit
  apply cb_bind (cb_of_nc nc_txBeginM)
  intro txid
  apply cb_bind
  · exact cb_of_nc (nc_emit _ rfl rfl)
  · intro _
    exact cb_commitOrRollback txid (cb_execDmlAutoCommitInner qre txid)

theorem cb_Execute (qre : Qre) : CB (Execute qre) := by
  unfold Execute
  apply cb_bind (cb_of_nc (nc_checkPermissions qre))
  intro _
  apply cb_ite
  · exact cb_execDDL qre
  apply cb_ite
  · apply cb_txGet_withRecycle
    intro c
    apply cb_of_nc
    apply nc_bind
    · exact nc_emit _ rfl rfl
    · intro _
      apply nc_bind (nc_mkInvalidator qre c)
      intro invalidator
      cases hp : qre.plan.planId with
      | PASS_DML => exact nc_execPassDmlBranch qre c
      | INSERT_PK => exact nc_execInsertPK qre c
      | INSERT_SUBQUERY => exact nc_execInsertSubquery qre c
      | DML_PK => exact nc_execDMLPK qre c invalidator
      | DML_SUBQUERY => exact nc_execDMLSubquery qre c invalidator
      | OTHER => exact nc_execSQL c qre.query true
      | PASS_SELECT => exact nc_execDirect qre c
      | PK_IN => exact nc_execDirect qre c
      | SELECT_SUBQUERY => exact nc_execDirect qre c
      | SET => exact nc_execDirect qre c
      | DDL => exact nc_execDirect qre c
  · cases hp : qre.plan.planId with
    | PASS_SELECT =>
      apply cb_ite
      · exact cb_of_nc (nc_throw _)
      · exact cb_execSelect qre
    | PK_IN => exact cb_execPKIN qre
    | SELECT_SUBQUERY => exact cb_execSubquery qre
    | SET => exact cb_execSet qre
    | OTHER =>
      apply cb_getConn_withRecycle
      intro c
      exact cb_of_nc (nc_execSQL c qre.query true)
    | PASS_DML =>
      apply cb_bind (cb_of_nc nc_askEnv)
      intro env0
      apply cb_ite
      · exact cb_of_nc (nc_throw _)
      · exact cb_execDmlAutoCommit qre
    | INSERT_PK =>
      apply cb_bind (cb_of_nc nc_askEnv)
      intro env0
      apply cb_ite
      · exact cb_of_nc (nc_throw _)
      · exact cb_execDmlAutoCommit qre
    | INSERT_SUBQUERY =>
      apply cb_bind (cb_of_nc nc_askEnv)
      intro env0
      apply cb_ite
      · exact cb_of_nc (nc_throw _)
      · exact cb_execDmlAutoCommit qre
    | DML_PK =>
      apply cb_bind (cb_of_nc nc_askEnv)
      intro env0
      apply cb_ite
      · exact cb_of_nc (nc_throw _)
      · exact cb_execDmlAutoCommit qre
    | DML_SUBQUERY =>
      apply cb_bind (cb_of_nc nc_askEnv)
      intro env0
      apply cb_ite
      · exact cb_of_nc (nc_throw _)
      · exact cb_execDmlAutoCommit qre
    | DDL =>
      apply cb_bind (cb_of_nc nc_askEnv)
      intro env0
      apply cb_ite
      · exact cb_of_nc (nc_throw _)
      · exact cb_execDmlAutoCommit qre

/-- Number of conn.Exec calls (successful or failed) in a trace. -/
def execCountOf (t : List Event) : Nat := t.countP fun e => match e with
  | .execOk _ _ _ _ => true
  | .execErr _ _ _ => true
  | _ => false

/-- The RowsAffected of the successful conn.Exec responses, in call order. -/
def execRAs (t : List Event) : List Nat := t.filterMap fun e => match e with
  | .execOk _ _ _ ra => some ra
  | _ => none

/-- The value bound under "#pk" in each bind map handed to
ParsedQuery.GenerateQuery, in call order. -/
def pkBindsOf (t : List Event) : List (Option BindVal) := t.filterMap fun e => match e with
  | .genSql _ bv _ => some (bmGet bv "#pk")
  | _ => none

/-- The (table, key) pairs of the CacheInvalidator.Delete calls, in order. -/
def invalidatesOf (t : List Event) : List (String × String) := t.filterMap fun e => match e with
  | .invalidate table key => some (table, key)
  | _ => none

/-- The PK row lists passed to buildStreamComment, in order. -/
def streamCommentsOf (t : List Event) : List (List Row) := t.filterMap fun e => match e with
  | .streamComment rows => some rows
  | _ => none

/-- The template identities handed to ParsedQuery.GenerateQuery, in order. -/
def genSqlPQs (t : List Event) : List PQ := t.filterMap fun e => match e with
  | .genSql pq _ _ => some pq
  | _ => none

/-- C1: On every request (the whole of Execute, and in particular the qFetch
path), every backend connection obtained from the connection pool or from
the transaction pool is recycled exactly once by the end of the request, on
every exit path including panic unwinds: the number of successful pool Get
calls in the trace equals the number of Recycle calls, for every
environment, state, and request. -/
theorem claimC1_connection_balance :
    (∀ (qre : Qre) (env : Env) (s : St),
      getCount ((Execute qre) env s).2.2 = recycleCount ((Execute qre) env s).2.2) ∧
    (∀ (pq : PQ) (bv : BindMap) (env : Env) (s : St),
      getCount ((qFetch pq bv) env s).2.2 = recycleCount ((qFetch pq bv) env s).2.2) :=
  ⟨fun qre env s => cb_Execute qre env s, fun pq bv env s => cb_qFetch pq bv env s⟩

/-! ## Success-run characterizations (claims C2, C3, C10 infrastructure) -/

/-- Shape of a successful directFetch run: the returned bind map is the
input map with "#maxLimit" set to maxResultSize + 1, the state advances by
one conn.Exec call, the backend response at the consumed index is the
returned result, and the trace is exactly one GenerateQuery call followed
by one successful conn.Exec (capped at maxResultSize, wantfields true via
execSQL) and its rewritten-SQL log entry. -/
theorem directFetch_ok (conn : Conn) (pq : PQ) (bv : BindMap) (bsc : Option String)
    (env : Env) (s : St) (r : QueryResult) (bv2 : BindMap) (s2 : St) (t : List Event)
    (h : directFetch conn pq bv bsc env s = (.ok (r, bv2), s2, t)) :
    bv2 = bmSet bv "#maxLimit" (.int (s.maxResultSize + 1)) ∧
    s2 = { s with execIdx := s.execIdx + 1 } ∧
    env.execResp s.execIdx = .ok r ∧
    ∃ sql, t = [.genSql pq bv2 bsc, .execOk sql s.maxResultSize true r.rowsAffected,
      .rewritten sql] := by
  unfold directFetch at h
  simp only [bindM_eq, pureM_eq] at h
  unfold M.bind at h
  unfold generateFinalSql at h
  dsimp only at h
  cases hq : env.generateQuery pq (bmSet bv "#maxLimit" (.int (s.maxResultSize + 1))) with
  | error e =>
    rw [hq] at h
    simp at h
  | ok sql0 =>
    rw [hq] at h
    dsimp only at h
    unfold execSQL execSQLNoPanic at h
    simp only [bindM_eq, pureM_eq] at h
    unfold M.bind M.pure getSt connExec emitM throwM at h
    dsimp only at h
    cases hr : env.execResp s.execIdx with
    | error e =>
      rw [hr] at h
      simp at h
    | ok qr =>
      rw [hr] at h
      dsimp only at h
      by_cases hc : s.maxResultSize < (qr.rows.length : Int)
      · simp only [hc, if_true] at h
        simp at h
      · simp only [hc, if_false] at h
        simp only [List.cons_append, List.nil_append, List.append_nil, Prod.mk.injEq,
          Except.ok.injEq] at h
        obtain ⟨⟨hr1, hbv⟩, hs, ht⟩ := h
        subst hr1
        subst hbv
        subst hs
        subst ht
        exact ⟨rfl, rfl, rfl, _, rfl⟩

/-- Inversion of a successful bind: the first computation succeeded, the
continuation succeeded from its state, and the trace is the concatenation. -/
theorem bind_ok_inv {α β : Type} {m : M α} {k : α → M β} {env : Env} {s : St}
    {b : β} {s2 : St} {t : List Event} (h : (m >>= k) env s = (.ok b, s2, t)) :
    ∃ a s1 t1 t2, m env s = (.ok a, s1, t1) ∧ k a env s1 = (.ok b, s2, t2) ∧ t = t1 ++ t2 := by
  rw [bindM_eq] at h
  unfold M.bind at h
  rcases hm : m env s with ⟨r1, s1x, t1x⟩
  rw [hm] at h
  cases r1 with
  | error e => simp at h
  | ok a =>
    dsimp only at h
    rcases hk : k a env s1x with ⟨r2, s2x, t2x⟩
    rw [hk] at h
    dsimp only at h
    simp only [Prod.mk.injEq] at h
    obtain ⟨hr, hs, ht⟩ := h
    subst hr
    subst hs
    exact ⟨a, s1x, t1x, t2x, rfl, hk, ht.symm⟩

theorem askEnv_run (env : Env) (s : St) : askEnv env s = (.ok env, s, []) := rfl

theorem emitM_run (ev : Event) (env : Env) (s : St) : emitM ev env s = (.ok (), s, [ev]) := rfl

theorem getSt_run (env : Env) (s : St) : getSt env s = (.ok s, s, []) := rfl

theorem setBindVars_run (bv : BindMap) (env : Env) (s : St) :
    setBindVars bv env s = (.ok (), { s with bindVars := bv }, []) := rfl

theorem pureM_run {α : Type} (a : α) (env : Env) (s : St) :
    (pure a : M α) env s = (.ok a, s, []) := rfl

/-- The batch sliced at loop index i by execDMLPKRows:
pkRows[i:end] with end = min(i + b, len(pkRows)). -/
def goBatch (pkRows : List Row) (b i : Nat) : List Row :=
  sliceL pkRows i (if pkRows.length ≤ i + b then pkRows.length else i + b)

/-- The source's slice pkRows[i:end] is the batch of (up to) b rows
starting at index i. -/
theorem goBatch_eq (pkRows : List Row) (b i : Nat) :
    goBatch pkRows b i = (pkRows.drop i).take b := by
  unfold goBatch sliceL
  by_cases hc : pkRows.length ≤ i + b
  · simp only [hc, if_true]
    rw [List.take_length]
    rw [List.take_of_length_le]
    rw [List.length_drop]
    omega
  · simp only [hc, if_false]
    rw [List.drop_take]
    congr 1
    omega

/-- Shape of a successful dmlStep run at loop index i: one batch stream
comment, one GenerateQuery call whose bind map carries
"#pk" = TupleEqualityList{cols, batch} (and the injected "#maxLimit"), one
successful conn.Exec whose RowsAffected is returned, and its log entry. -/
theorem dmlStep_ok (qre : Qre) (conn : Conn) (cols : List String) (pkRows : List Row)
    (secondaryList : Option (List Row)) (b : Nat) (i : Nat) (env : Env) (s : St)
    (ra : Nat) (s2 : St) (t : List Event)
    (h : dmlStep qre conn cols pkRows secondaryList b i env s = (.ok ra, s2, t)) :
    ∃ r sql,
      env.execResp s.execIdx = .ok r ∧ ra = r.rowsAffected ∧
      s2 = { s with
        bindVars := bmSet (bmSet s.bindVars "#pk" (.tupleList cols (goBatch pkRows b i)))
          "#maxLimit" (.int (s.maxResultSize + 1)),
        execIdx := s.execIdx + 1 } ∧
      t = [.streamComment (goBatch pkRows b i),
           .genSql qre.plan.outerQuery
             (bmSet (bmSet s.bindVars "#pk" (.tupleList cols (goBatch pkRows b i)))
               "#maxLimit" (.int (s.maxResultSize + 1)))
             (some (env.buildStreamComment (goBatch pkRows b i)
               (secondaryList.map (fun sl =>
                 sliceL sl i (if pkRows.length ≤ i + b then pkRows.length else i + b))))),
           .execOk sql s.maxResultSize true r.rowsAffected,
           .rewritten sql] := by
  unfold dmlStep at h
  dsimp only at h
  obtain ⟨env0, sA, tA, tB, hA, h, htA⟩ := bind_ok_inv h
  rw [askEnv_run] at hA
  simp only [Prod.mk.injEq, Except.ok.injEq] at hA
  obtain ⟨hA1, hA2, hA3⟩ := hA
  subst hA1; subst hA2; subst hA3
  obtain ⟨u1, sB, tC, tD, hC, h, htC⟩ := bind_ok_inv h
  rw [emitM_run] at hC
  simp only [Prod.mk.injEq, Except.ok.injEq] at hC
  obtain ⟨hC2, hC3⟩ := hC.2
  subst hC2; subst hC3
  obtain ⟨st0, sD, tE, tF, hE, h, htE⟩ := bind_ok_inv h
  rw [getSt_run] at hE
  simp only [Prod.mk.injEq, Except.ok.injEq] at hE
  obtain ⟨hE1, hE2, hE3⟩ := hE
  subst hE1; subst hE2; subst hE3
  obtain ⟨u2, sG, tG, tH, hG, h, htG⟩ := bind_ok_inv h
  rw [setBindVars_run] at hG
  simp only [Prod.mk.injEq, Except.ok.injEq] at hG
  obtain ⟨hG2, hG3⟩ := hG.2
  subst hG2; subst hG3
  obtain ⟨p, sI, tI, tJ, hI, h, htI⟩ := bind_ok_inv h
  obtain ⟨r, bv2⟩ := p
  obtain ⟨hbv2, hsI, hresp, sql, htrI⟩ := directFetch_ok _ _ _ _ _ _ _ _ _ _ hI
  obtain ⟨u3, sK, tK, tL, hK, h, htK⟩ := bind_ok_inv h
  rw [setBindVars_run] at hK
  simp only [Prod.mk.injEq, Except.ok.injEq] at hK
  obtain ⟨hK2, hK3⟩ := hK.2
  subst hK2; subst hK3
  rw [pureM_run] at h
  simp only [Prod.mk.injEq, Except.ok.injEq] at h
  obtain ⟨h1, h2, h3⟩ := h
  subst h2; subst h3
  subst htA; subst htC; subst htE; subst htG; subst htI; subst htK
  subst hbv2; subst hsI; subst htrI
  dsimp only at hresp
  refine ⟨r, sql, hresp, h1.symm, ?_, ?_⟩
  · unfold goBatch
    rfl
  · unfold goBatch
    simp only [List.cons_append, List.nil_append, List.append_nil]

theorem pkBindsOf_append (a b : List Event) :
    pkBindsOf (a ++ b) = pkBindsOf a ++ pkBindsOf b := by
  simp [pkBindsOf, List.filterMap_append]

theorem execRAs_append (a b : List Event) : execRAs (a ++ b) = execRAs a ++ execRAs b := by
  simp [execRAs, List.filterMap_append]

theorem invalidatesOf_append (a b : List Event) :
    invalidatesOf (a ++ b) = invalidatesOf a ++ invalidatesOf b := by
  simp [invalidatesOf, List.filterMap_append]

theorem streamCommentsOf_append (a b : List Event) :
    streamCommentsOf (a ++ b) = streamCommentsOf a ++ streamCommentsOf b := by
  simp [streamCommentsOf, List.filterMap_append]

theorem execCountOf_append (a b : List Event) :
    execCountOf (a ++ b) = execCountOf a + execCountOf b := by
  simp [execCountOf, List.countP_append]

theorem genSqlPQs_append (a b : List Event) :
    genSqlPQs (a ++ b) = genSqlPQs a ++ genSqlPQs b := by
  simp [genSqlPQs, List.filterMap_append]

/-- Invariant of a successful dmlLoop run over a list of loop indices:
one GenerateQuery binding "#pk" to the batch at each index (in order), one
conn.Exec per index, the accumulated RowsAffected is the input accumulator
plus the sum of the per-batch RowsAffected, no invalidator Delete happens
inside the loop, and the stream comments are exactly the batches. -/
theorem dmlLoop_ok (qre : Qre) (conn : Conn) (cols : List String) (pkRows : List Row)
    (secList : Option (List Row)) (b : Nat) :
    ∀ (idxs : List Nat) (acc : Nat) (env : Env) (s : St) (tot : Nat) (s2 : St)
      (t : List Event),
    dmlLoop qre conn cols pkRows secList b idxs acc env s = (.ok tot, s2, t) →
    pkBindsOf t = idxs.map (fun i => some (BindVal.tupleList cols (goBatch pkRows b i))) ∧
    execCountOf t = idxs.length ∧
    tot = acc + (execRAs t).sum ∧
    invalidatesOf t = [] ∧
    streamCommentsOf t = idxs.map (fun i => goBatch pkRows b i) ∧
    genSqlPQs t = List.replicate idxs.length qre.plan.outerQuery := by
  intro idxs
  induction idxs with
  | nil =>
    intro acc env s tot s2 t h
    simp only [dmlLoop] at h
    rw [pureM_run] at h
    simp only [Prod.mk.injEq, Except.ok.injEq] at h
    obtain ⟨h1, h2, h3⟩ := h
    subst h1
    subst h3
    refine ⟨rfl, rfl, ?_, rfl, rfl, rfl⟩
    simp [execRAs]
  | cons i rest ih =>
    intro acc env s tot s2 t h
    simp only [dmlLoop] at h
    obtain ⟨ra, s1, t1, t2, hstep, hrest, ht⟩ := bind_ok_inv h
    obtain ⟨r, sql, hresp, hra, hs1, ht1⟩ := dmlStep_ok _ _ _ _ _ _ _ _ _ _ _ _ hstep
    obtain ⟨ihb, ihc, ihd, ihe, ihf, ihg⟩ := ih (acc + ra) env s1 tot s2 t2 hrest
    subst ht
    subst ht1
    subst hra
    have hne : ("#maxLimit" : String) ≠ "#pk" := by decide
    constructor
    · rw [pkBindsOf_append, ihb]
      simp only [pkBindsOf, List.filterMap_cons, List.filterMap_nil, List.map_cons]
      rw [bmGet_bmSet_ne _ _ _ _ hne, bmGet_bmSet_self]
      rfl
    constructor
    · rw [execCountOf_append, ihc]
      simp only [execCountOf, List.countP_cons, List.countP_nil, List.length_cons]
      simp
      try omega
    constructor
    · rw [execRAs_append]
      simp only [execRAs, List.filterMap_cons, List.filterMap_nil] at ihd ⊢
      simp only [List.cons_append, List.nil_append, List.sum_cons]
      omega
    constructor
    · rw [invalidatesOf_append, ihe]
      simp [invalidatesOf, List.filterMap_cons]
    constructor
    · rw [streamCommentsOf_append, ihf]
      simp [streamCommentsOf, List.filterMap_cons, List.map_cons]
    · rw [genSqlPQs_append, ihg]
      simp [genSqlPQs, List.filterMap_cons, List.length_cons, List.replicate_succ]

/-- Rewriting a successful bind run by its first component's run. -/
theorem bind_run_eq {α β : Type} (m : M α) (k : α → M β) (env : Env) (s : St)
    (a : α) (s1 : St) (t1 : List Event) (hm : m env s = (.ok a, s1, t1)) :
    (m >>= k) env s =
      (match k a env s1 with | (r, s2, t2) => (r, s2, t1 ++ t2)) := by
  rw [bindM_eq]
  unfold M.bind
  rw [hm]

/-- Variant of bind_run_eq for an already-unfolded M.bind. -/
theorem mbind_run_eq {α β : Type} (m : M α) (k : α → M β) (env : Env) (s : St)
    (a : α) (s1 : St) (t1 : List Event) (hm : m env s = (.ok a, s1, t1)) :
    M.bind m k env s =
      (match k a env s1 with | (r, s2, t2) => (r, s2, t1 ++ t2)) := by
  unfold M.bind
  rw [hm]

/-- The invalidator loop Deletes exactly the key of every target PK row, in
order, changing no state. -/
theorem invalidateLoop_run (table : String) : ∀ (l : List Row) (env : Env) (s : St),
    invalidateLoop table l env s =
      (.ok (), s, l.map (fun pk => Event.invalidate table (env.buildKey pk))) := by
  intro l
  induction l with
  | nil => intro env s; rfl
  | cons pk rest ih =>
    intro env s
    simp only [invalidateLoop]
    rw [bind_run_eq _ _ env s _ _ _ (askEnv_run env s)]
    rw [bind_run_eq _ _ env s _ _ _ (emitM_run _ env s)]
    rw [ih]
    simp [List.map_cons]

theorem execCountOf_invalidates (table : String) (env : Env) (l : List Row) :
    execCountOf (l.map fun pk => Event.invalidate table (env.buildKey pk)) = 0 := by
  induction l with
  | nil => rfl
  | cons pk rest ih => simpa [execCountOf, List.countP_cons] using ih

theorem pkBindsOf_invalidates (table : String) (env : Env) (l : List Row) :
    pkBindsOf (l.map fun pk => Event.invalidate table (env.buildKey pk)) = [] := by
  induction l with
  | nil => rfl
  | cons pk rest ih => simpa [pkBindsOf, List.filterMap_cons] using ih

theorem execRAs_invalidates (table : String) (env : Env) (l : List Row) :
    execRAs (l.map fun pk => Event.invalidate table (env.buildKey pk)) = [] := by
  induction l with
  | nil => rfl
  | cons pk rest ih => simpa [execRAs, List.filterMap_cons] using ih

theorem genSqlPQs_invalidates (table : String) (env : Env) (l : List Row) :
    genSqlPQs (l.map fun pk => Event.invalidate table (env.buildKey pk)) = [] := by
  induction l with
  | nil => rfl
  | cons pk rest ih => simpa [genSqlPQs, List.filterMap_cons] using ih

theorem invalidatesOf_invalidates (table : String) (env : Env) (l : List Row) :
    invalidatesOf (l.map fun pk => Event.invalidate table (env.buildKey pk)) =
      l.map (fun pk => (table, env.buildKey pk)) := by
  induction l with
  | nil => rfl
  | cons pk rest ih => simpa [invalidatesOf, List.filterMap_cons] using ih

/-- C2: For a non-empty list of N target PK rows and batch size
B = maxDMLRows >= 1, a successful execDMLPKRows run performs exactly
ceil(N/B) = (N + B - 1) / B executions of OuterQuery, the i-th binding
"#pk" to TupleEqualityList{Indexes[0].Columns, pkRows[i*B : (i+1)*B]},
returns RowsAffected equal to the sum of the per-batch RowsAffected, and,
when an invalidator is present, afterwards Deletes the key of every one of
the N target PK rows (and none when it is absent). -/
theorem claimC2_dml_chunking (qre : Qre) (conn : Conn) (pkRows : List Row)
    (invalidator : Option String) (env : Env) (s : St)
    (hne : pkRows ≠ []) (hb : 1 ≤ s.maxDMLRows) :
    ∀ (r : QueryResult) (s2 : St) (t : List Event),
      execDMLPKRows qre conn pkRows invalidator env s = (.ok r, s2, t) →
      execCountOf t = (pkRows.length + s.maxDMLRows.toNat - 1) / s.maxDMLRows.toNat ∧
      genSqlPQs t = List.replicate
        ((pkRows.length + s.maxDMLRows.toNat - 1) / s.maxDMLRows.toNat) qre.plan.outerQuery ∧
      (∀ ti, qre.plan.tableInfo = some ti →
        pkBindsOf t =
          (List.range' 0 ((pkRows.length + s.maxDMLRows.toNat - 1) / s.maxDMLRows.toNat)
            s.maxDMLRows.toNat).map
            (fun i => some (BindVal.tupleList ti.indexColumns
              ((pkRows.drop i).take s.maxDMLRows.toNat)))) ∧
      r.rowsAffected = (execRAs t).sum ∧
      (invalidator = none → invalidatesOf t = []) ∧
      (∀ table, invalidator = some table →
        ∃ tBatches, t = tBatches ++ pkRows.map (fun pk => Event.invalidate table (env.buildKey pk)) ∧
          invalidatesOf t = pkRows.map (fun pk => (table, env.buildKey pk))) := by
  intro r s2 t h
  unfold execDMLPKRows at h
  have hlen : ¬(pkRows.length = 0) := by simpa using hne
  rw [if_neg hlen] at h
  cases hti : qre.plan.tableInfo with
  | none =>
    rw [hti] at h
    unfold throwM at h
    simp at h
  | some ti =>
    rw [hti] at h
    obtain ⟨env0, sA, tA, tB, hA, h, htA⟩ := bind_ok_inv h
    rw [askEnv_run] at hA
    simp only [Prod.mk.injEq, Except.ok.injEq] at hA
    obtain ⟨hA1, hA2, hA3⟩ := hA
    subst hA1; subst hA2; subst hA3
    obtain ⟨st0, sB, tC, tD, hC, h, htC⟩ := bind_ok_inv h
    rw [getSt_run] at hC
    simp only [Prod.mk.injEq, Except.ok.injEq] at hC
    obtain ⟨hC1, hC2, hC3⟩ := hC
    subst hC1; subst hC2; subst hC3
    cases hbs : env.buildSecondaryList pkRows s.bindVars with
    | error e =>
      rw [hbs] at h
      unfold throwM at h
      simp at h
    | ok secList =>
      rw [hbs] at h
      dsimp only at h
      obtain ⟨total, sL, tL, tM, hLoop, h, htL⟩ := bind_ok_inv h
      obtain ⟨hp1, hp2, hp3, hp4, hp5, hp6⟩ :=
        dmlLoop_ok qre conn ti.indexColumns pkRows secList s.maxDMLRows.toNat
          (List.range' 0 ((pkRows.length + s.maxDMLRows.toNat - 1) / s.maxDMLRows.toNat)
            s.maxDMLRows.toNat) 0 env s total sL tL hLoop
      cases invalidator with
      | none =>
        dsimp only at h
        rw [pureM_run] at h
        simp only [Prod.mk.injEq, Except.ok.injEq] at h
        obtain ⟨h1, h2, h3⟩ := h
        subst h2; subst h3
        subst htA; subst htC; subst htL
        simp only [List.nil_append, List.append_nil]
        refine ⟨?_, ?_, ?_, ?_, ?_, ?_⟩
        · rw [hp2, List.length_range']
        · rw [hp6, List.length_range']
        · intro ti2 hti2
          injection hti2 with hti3
          subst hti3
          rw [hp1]
          simp only [goBatch_eq]
        · rw [h1.symm]
          simpa using hp3
        · intro _
          exact hp4
        · intro table htable
          exact absurd htable (by simp)
      | some table =>
        dsimp only at h
        obtain ⟨u4, sN, tN, tO, hInv, h, htN⟩ := bind_ok_inv h
        rw [invalidateLoop_run] at hInv
        simp only [Prod.mk.injEq, Except.ok.injEq] at hInv
        obtain ⟨hI2, hI3⟩ := hInv.2
        subst hI2; subst hI3
        rw [pureM_run] at h
        simp only [Prod.mk.injEq, Except.ok.injEq] at h
        obtain ⟨h1, h2, h3⟩ := h
        subst h2; subst h3
        subst htA; subst htC; subst htL; subst htN
        simp only [List.nil_append, List.append_nil]
        refine ⟨?_, ?_, ?_, ?_, ?_, ?_⟩
        · rw [execCountOf_append, hp2, execCountOf_invalidates, List.length_range']
          omega
        · rw [genSqlPQs_append, hp6, genSqlPQs_invalidates, List.length_range']
          simp
        · intro ti2 hti2
          injection hti2 with hti3
          subst hti3
          rw [pkBindsOf_append, hp1, pkBindsOf_invalidates]
          simp only [goBatch_eq, List.append_nil]
        · rw [h1.symm]
          rw [execRAs_append, execRAs_invalidates]
          simpa using hp3
        · intro hnone
          exact absurd hnone (by simp)
        · intro table2 htable2
          injection htable2 with ht2
          subst ht2
          refine ⟨tL, rfl, ?_⟩
          rw [invalidatesOf_append, hp4, invalidatesOf_invalidates]
          simp

/-! ## Concrete fixtures used by the witnesses -/

def tVal (n : Nat) : Val := { isNull := false, str := toString n }

def sampleRow (n : Nat) : Row := [tVal n]

def defaultTI : TableInfo :=
  { cacheType := .cacheRW, indexColumns := ["id"], pkColumns := [0] }

def defaultPlan : Plan :=
  { planId := .DML_PK, reasonLock := false, tableInfo := some defaultTI,
    tableName := "t", fields := some ["id", "v"], fullQuery := 1, outerQuery := 2,
    subquery := 3, columnNumbers := [0], subqueryPKColumns := [0], setKey := "",
    setValue := .other, authorized := none }

def defaultQre : Qre := { query := "update t", transactionID := 0, plan := defaultPlan }

def defaultEnv : Env :=
  { ctxBackground := true
    callInfo := none
    strictTableAcl := false
    enableAutoCommit := true
    generateQuery := fun pq _ => .ok ("Q" ++ toString pq)
    restoreTrailing := fun sql _ => sql
    execResp := fun _ => .ok { fields := none, rows := [], rowsAffected := 1, insertID := 0 }
    poolGet := fun _ => none
    txPoolGet := fun _ => none
    txBeginRes := fun _ => .ok 7
    cacheGetOracle := fun _ => { row := some [tVal 1], cas := 5 }
    randVal := fun _ => 999999
    consCreate := fun _ => true
    consResult := fun _ => .ok {}
    buildValueList := fun _ => .ok [sampleRow 1, sampleRow 2, sampleRow 3]
    buildSecondaryList := fun _ _ => .ok none
    buildStreamComment := fun _ _ => " /* comment */"
    buildKey := fun row => String.join (row.map (fun v => v.str))
    applyFilter := fun _ row => row
    applyFilterWithPKDefaults := fun _ row => row
    validateRow := fun _ => .ok ()
    getLimit := fun _ => .ok (-1)
    getActionRes := fun _ _ _ => (.qrContinue, "")
    ddlParse := fun _ => { action := "create", tableName := "", newName := "t" } }

def defaultSt : St :=
  { bindVars := [], maxResultSize := 10, maxDMLRows := 2, streamBufferSize := 32768,
    strictMode := 1, spotCheckFreq := 0, execIdx := 0, poolGetIdx := 0, txBeginIdx := 0,
    randIdx := 0 }

/-- Witness for C2: three PK rows with batch size two run in exactly two
batches. -/
theorem claimC2_dml_chunking_witness :
    [sampleRow 1, sampleRow 2, sampleRow 3] ≠ ([] : List Row) ∧
    1 ≤ defaultSt.maxDMLRows ∧
    execCountOf (execDMLPKRows defaultQre () [sampleRow 1, sampleRow 2, sampleRow 3]
      (some "t") defaultEnv defaultSt).2.2 = 2 := by
  refine ⟨by decide, by decide, ?_⟩
  have h := claimC2_dml_chunking defaultQre () [sampleRow 1, sampleRow 2, sampleRow 3]
    (some "t") defaultEnv defaultSt (by decide) (by decide)
  exact (h _ _ _ rfl).1

/-- C10: A DML whose materialized target PK-row list is empty is a complete
no-op: execDMLPKRows with zero PK rows returns RowsAffected = 0 without any
observable effect (no OuterQuery execution, no stream comment, no
invalidator Delete, no state change); and execInsertSubquery whose Subquery
returns zero inner rows returns RowsAffected = 0 with exactly the
Subquery's own single execution in the trace — no OuterQuery, no stream
comment, no invalidator key. -/
theorem claimC10_empty_dml_noop (qre : Qre) (conn : Conn) (invalidator : Option String) :
    (∀ (env : Env) (s : St), execDMLPKRows qre conn [] invalidator env s =
      (.ok { fields := none, rows := [], rowsAffected := 0, insertID := 0 }, s, [])) ∧
    (∀ (env : Env) (s : St) (r : QueryResult) (bv2 : BindMap) (s1 : St) (t1 : List Event),
      directFetch conn qre.plan.subquery s.bindVars none env s = (.ok (r, bv2), s1, t1) →
      r.rows = [] →
      execInsertSubquery qre conn env s =
        (.ok { fields := none, rows := [], rowsAffected := 0, insertID := 0 },
          { s1 with bindVars := bv2 }, t1) ∧
      execCountOf t1 = 1 ∧ streamCommentsOf t1 = [] ∧ invalidatesOf t1 = []) := by
  constructor
  · intro env s
    rfl
  · intro env s r bv2 s1 t1 hdf hrows
    obtain ⟨hbv2, hs1, hresp, sql, htr⟩ := directFetch_ok _ _ _ _ _ _ _ _ _ _ hdf
    constructor
    · unfold execInsertSubquery
      rw [bind_run_eq _ _ env s _ _ _ (getSt_run env s)]
      rw [bind_run_eq _ _ env s _ _ _ hdf]
      dsimp only
      rw [mbind_run_eq _ _ env s1 _ _ _ (setBindVars_run bv2 env s1)]
      rw [hrows]
      simp [M.pure]
    · subst htr
      refine ⟨rfl, rfl, rfl⟩

/-- Witness for C10: at the concrete fixtures, an empty PK-row DML is a
no-op, and an insert-subquery whose inner result is empty returns
RowsAffected = 0. -/
theorem claimC10_empty_dml_noop_witness :
    execDMLPKRows defaultQre () [] (some "t") defaultEnv defaultSt =
      (.ok { fields := none, rows := [], rowsAffected := 0, insertID := 0 }, defaultSt, []) ∧
    (execInsertSubquery defaultQre () defaultEnv defaultSt).1 =
      .ok { fields := none, rows := [], rowsAffected := 0, insertID := 0 } := by
  have h := claimC10_empty_dml_noop defaultQre () (some "t")
  refine ⟨h.1 defaultEnv defaultSt, ?_⟩
  have h2 := h.2 defaultEnv defaultSt _ _ _ _ rfl rfl
  rw [h2.1]

/-- C3: fetchMulti with known Fields: an empty PK-row list or limit == 0
returns the empty result carrying the plan's Fields without touching cache
or backend (empty trace, unchanged state); otherwise any successful run
returns RowsAffected equal to the length of the returned Rows, at most
limit rows when limit > 0, and the returned Rows are the assembled rows
post-truncated to the first limit rows exactly when limit > 0 and more
than limit rows were assembled (a negative limit never truncates). -/
theorem claimC3_fetchMulti_limit (qre : Qre) (pkRows : List Row) (limit : Int) (f : Fields)
    (hf : qre.plan.fields = some f) :
    (∀ (env : Env) (s : St), (pkRows = [] ∨ limit = 0) →
      fetchMulti qre pkRows limit env s =
        (.ok { fields := some f, rows := [], rowsAffected := 0, insertID := 0 }, s, [])) ∧
    (∀ (env : Env) (s : St) (r : QueryResult) (s2 : St) (t : List Event),
      fetchMulti qre pkRows limit env s = (.ok r, s2, t) →
      r.fields = some f ∧
      r.rowsAffected = r.rows.length ∧
      (0 < limit → (r.rows.length : Int) ≤ limit) ∧
      (pkRows ≠ [] → limit ≠ 0 →
        ∀ rows0 s1 t1, fetchAssembledRows qre pkRows env s = (.ok rows0, s1, t1) →
          r.rows = if 0 < limit ∧ limit < (rows0.length : Int)
                   then rows0.take limit.toNat else rows0)) := by
  constructor
  · intro env s hguard
    unfold fetchMulti
    rw [hf]
    dsimp only
    have hcond : pkRows.length = 0 ∨ limit = 0 := by
      rcases hguard with h1 | h2
      · left; simp [h1]
      · right; exact h2
    rw [if_pos hcond]
    rfl
  · intro env s r s2 t h
    unfold fetchMulti at h
    rw [hf] at h
    dsimp only at h
    by_cases hguard : pkRows.length = 0 ∨ limit = 0
    · rw [if_pos hguard] at h
      rw [pureM_run] at h
      simp only [Prod.mk.injEq, Except.ok.injEq] at h
      obtain ⟨h1, h2, h3⟩ := h
      subst h1
      refine ⟨rfl, rfl, ?_, ?_⟩
      · intro hl
        simp
        omega
      · intro hne hlim
        exfalso
        rcases hguard with hg | hg
        · exact hne (List.length_eq_zero.mp hg)
        · exact hlim hg
    · rw [if_neg hguard] at h
      obtain ⟨rowsA, sA, tA, tB, hasm, h, ht⟩ := bind_ok_inv h
      by_cases htr : 0 < limit ∧ limit < (rowsA.length : Int)
      · rw [if_pos htr] at h
        rw [pureM_run] at h
        simp only [Prod.mk.injEq, Except.ok.injEq] at h
        obtain ⟨h1, h2, h3⟩ := h
        subst h1
        have hlen : (rowsA.take limit.toNat).length = limit.toNat := by
          rw [List.length_take]
          omega
        refine ⟨rfl, ?_, ?_, ?_⟩
        · simpa using hlen.symm
        · intro _
          simp only [hlen]
          omega
        · intro _ _ rows0 s1 t1 h0
          rw [hasm] at h0
          simp only [Prod.mk.injEq, Except.ok.injEq] at h0
          obtain ⟨h01, h02, h03⟩ := h0
          subst h01
          rw [if_pos htr]
      · rw [if_neg htr] at h
        rw [pureM_run] at h
        simp only [Prod.mk.injEq, Except.ok.injEq] at h
        obtain ⟨h1, h2, h3⟩ := h
        subst h1
        refine ⟨rfl, rfl, ?_, ?_⟩
        · intro hl
          simp only
          omega
        · intro _ _ rows0 s1 t1 h0
          rw [hasm] at h0
          simp only [Prod.mk.injEq, Except.ok.injEq] at h0
          obtain ⟨h01, h02, h03⟩ := h0
          subst h01
          rw [if_neg htr]

/-- Witness for C3: at the concrete fixtures, limit 0 short-circuits to the
empty result with the plan's Fields and an empty trace, and three assembled
cache-hit rows under limit 2 are truncated to two rows with
RowsAffected = 2. -/
theorem claimC3_fetchMulti_limit_witness :
    fetchMulti defaultQre [sampleRow 1] 0 defaultEnv defaultSt =
      (.ok { fields := some ["id", "v"], rows := [], rowsAffected := 0, insertID := 0 },
        defaultSt, []) ∧
    (fetchMulti defaultQre [sampleRow 1, sampleRow 2, sampleRow 3] 2 defaultEnv
        defaultSt).1 =
      .ok { fields := some ["id", "v"], rows := [[tVal 1], [tVal 1]],
            rowsAffected := 2, insertID := 0 } := by
  constructor
  · exact (claimC3_fetchMulti_limit defaultQre [sampleRow 1] 0 ["id", "v"] rfl).1
      defaultEnv defaultSt (Or.inr rfl)
  · rfl

/-- C5: execSet on the sized tunables: out-of-range values panic with an
ErrFail whose message names the variable and the offending value, leaving
the whole state (so the tunable) unchanged and producing no effect;
in-range values are stored into the tunable and an empty QueryResult is
returned. vt_max_result_size and vt_max_dml_rows require >= 1,
vt_stream_buffer_size requires >= 1024. -/
theorem claimC5_execSet_ranges (qre : Qre) (v : Int) (env : Env) (s : St) :
    (qre.plan.setKey = "vt_max_result_size" → qre.plan.setValue = .int v →
      (v < 1 → execSet qre env s =
        (.error (.tabletError .fail ("vt_max_result_size out of range " ++ toString v)),
          s, [])) ∧
      (1 ≤ v → execSet qre env s =
        (.ok { fields := none, rows := [], rowsAffected := 0, insertID := 0 },
          { s with maxResultSize := v }, []))) ∧
    (qre.plan.setKey = "vt_max_dml_rows" → qre.plan.setValue = .int v →
      (v < 1 → execSet qre env s =
        (.error (.tabletError .fail ("vt_max_dml_rows out of range " ++ toString v)),
          s, [])) ∧
      (1 ≤ v → execSet qre env s =
        (.ok { fields := none, rows := [], rowsAffected := 0, insertID := 0 },
          { s with maxDMLRows := v }, []))) ∧
    (qre.plan.setKey = "vt_stream_buffer_size" → qre.plan.setValue = .int v →
      (v < 1024 → execSet qre env s =
        (.error (.tabletError .fail ("vt_stream_buffer_size out of range " ++ toString v)),
          s, [])) ∧
      (1024 ≤ v → execSet qre env s =
        (.ok { fields := none, rows := [], rowsAffected := 0, insertID := 0 },
          { s with streamBufferSize := v }, []))) := by
  refine ⟨?_, ?_, ?_⟩
  · intro hk hv
    unfold execSet
    rw [hk, hv]
    rw [if_neg (by decide), if_neg (by decide), if_neg (by decide), if_neg (by decide),
      if_neg (by decide), if_neg (by decide), if_pos rfl]
    rw [bind_run_eq _ _ env s _ _ _ (show getInt64M (SetVal.int v) env s = (.ok v, s, []) from rfl)]
    constructor
    · intro hlt
      rw [if_pos hlt]
      rfl
    · intro hge
      rw [if_neg (by omega)]
      rfl
  · intro hk hv
    unfold execSet
    rw [hk, hv]
    rw [if_neg (by decide), if_neg (by decide), if_neg (by decide), if_neg (by decide),
      if_neg (by decide), if_neg (by decide), if_neg (by decide), if_pos rfl]
    rw [bind_run_eq _ _ env s _ _ _ (show getInt64M (SetVal.int v) env s = (.ok v, s, []) from rfl)]
    constructor
    · intro hlt
      rw [if_pos hlt]
      rfl
    · intro hge
      rw [if_neg (by omega)]
      rfl
  · intro hk hv
    unfold execSet
    rw [hk, hv]
    rw [if_neg (by decide), if_neg (by decide), if_neg (by decide), if_neg (by decide),
      if_neg (by decide), if_neg (by decide), if_neg (by decide), if_neg (by decide),
      if_pos rfl]
    rw [bind_run_eq _ _ env s _ _ _ (show getInt64M (SetVal.int v) env s = (.ok v, s, []) from rfl)]
    constructor
    · intro hlt
      rw [if_pos hlt]
      rfl
    · intro hge
      rw [if_neg (by omega)]
      rfl

def setQre (k : String) (v : Int) : Qre :=
  { query := "set", transactionID := 0,
    plan := { defaultPlan with planId := .SET, setKey := k, setValue := .int v } }

/-- Witness for C5: vt_max_dml_rows = 0 fails with the message naming the
variable and the value, leaving the state unchanged; vt_max_dml_rows = 500
is stored and an empty QueryResult is returned. -/
theorem claimC5_execSet_ranges_witness :
    execSet (setQre "vt_max_dml_rows" 0) defaultEnv defaultSt =
      (.error (.tabletError .fail "vt_max_dml_rows out of range 0"), defaultSt, []) ∧
    execSet (setQre "vt_max_dml_rows" 500) defaultEnv defaultSt =
      (.ok { fields := none, rows := [], rowsAffected := 0, insertID := 0 },
        { defaultSt with maxDMLRows := 500 }, []) := by
  have h := (claimC5_execSet_ranges (setQre "vt_max_dml_rows" 0) 0 defaultEnv
    defaultSt).2.1 rfl rfl
  have h2 := (claimC5_execSet_ranges (setQre "vt_max_dml_rows" 500) 500 defaultEnv
    defaultSt).2.1 rfl rfl
  exact ⟨h.1 (by decide), h2.2 (by decide)⟩

/-- The wantfields argument of each conn.Exec call, in order. -/
def execWantfieldsOf (t : List Event) : List Bool := t.filterMap fun e => match e with
  | .execOk _ _ wf _ => some wf
  | .execErr _ _ wf => some wf
  | _ => none

/-- The maxrows argument of each conn.Exec call, in order. -/
def execMaxrowsOf (t : List Event) : List Int := t.filterMap fun e => match e with
  | .execOk _ mr _ _ => some mr
  | .execErr _ mr _ => some mr
  | _ => none

/-- C9: execSQL ignores its own wantfields argument: the run is identical
to the run with wantfields = true, and the single conn.Exec it performs is
always invoked with wantfields = true. -/
theorem claimC9_execSQL_wantfields (conn : Conn) (sql : String) (wantfields : Bool) :
    (∀ (env : Env) (s : St), execSQL conn sql wantfields env s = execSQL conn sql true env s) ∧
    (∀ (env : Env) (s : St),
      execWantfieldsOf ((execSQL conn sql wantfields env s).2.2) = [true]) := by
  constructor
  · intro env s
    rfl
  · intro env s
    unfold execSQL execSQLNoPanic
    simp only [bindM_eq, pureM_eq]
    unfold M.bind M.pure getSt connExec emitM throwM
    dsimp only
    cases h : env.execResp s.execIdx with
    | error e => rfl
    | ok qr =>
      by_cases hc : s.maxResultSize < (qr.rows.length : Int)
      · simp only [hc, if_true]
        rfl
      · simp only [hc, if_false]
        rfl

/-- C6: generateFinalSql sets bindVars["#maxLimit"] to maxResultSize + 1
before substituting bind variables into the template (the GenerateQuery
call receives the updated map), appends the stream comment when present
and then restores the stripped trailing token; and the backend Exec is
invoked with a maxrows cap equal to maxResultSize, so a backend response
exceeding maxResultSize rows surfaces as an error (the cap behavior of
PooledConn.Exec is modelled from the spec, see connExec). -/
theorem claimC6_final_sql (pq : PQ) (bv : BindMap) (bsc : Option String) (conn : Conn)
    (sql : String) (wf : Bool) :
    (∀ (env : Env) (s : St),
      (generateFinalSql pq bv bsc env s).2.2 =
        [.genSql pq (bmSet bv "#maxLimit" (.int (s.maxResultSize + 1))) bsc] ∧
      bmGet (bmSet bv "#maxLimit" (.int (s.maxResultSize + 1))) "#maxLimit" =
        some (.int (s.maxResultSize + 1))) ∧
    (∀ (env : Env) (s : St) (q c : String), bsc = some c →
      env.generateQuery pq (bmSet bv "#maxLimit" (.int (s.maxResultSize + 1))) = .ok q →
      generateFinalSql pq bv bsc env s =
        (.ok (env.restoreTrailing (q ++ c) (bmSet bv "#maxLimit" (.int (s.maxResultSize + 1))),
          bmSet bv "#maxLimit" (.int (s.maxResultSize + 1))), s,
          [.genSql pq (bmSet bv "#maxLimit" (.int (s.maxResultSize + 1))) bsc])) ∧
    (∀ (env : Env) (s : St) (q : String), bsc = none →
      env.generateQuery pq (bmSet bv "#maxLimit" (.int (s.maxResultSize + 1))) = .ok q →
      generateFinalSql pq bv bsc env s =
        (.ok (env.restoreTrailing q (bmSet bv "#maxLimit" (.int (s.maxResultSize + 1))),
          bmSet bv "#maxLimit" (.int (s.maxResultSize + 1))), s,
          [.genSql pq (bmSet bv "#maxLimit" (.int (s.maxResultSize + 1))) bsc])) ∧
    (∀ (env : Env) (s : St),
      execMaxrowsOf ((execSQLNoPanic conn sql wf env s).2.2) = [s.maxResultSize]) ∧
    (∀ (env : Env) (s : St) (qr : QueryResult), env.execResp s.execIdx = .ok qr →
      s.maxResultSize < (qr.rows.length : Int) →
      execSQLNoPanic conn sql wf env s =
        (.ok (.error (.tabletError .fail ("Row count exceeded " ++ toString s.maxResultSize))),
          { s with execIdx := s.execIdx + 1 }, [.execErr sql s.maxResultSize wf,
          .rewritten sql])) := by
  refine ⟨?_, ?_, ?_, ?_, ?_⟩
  · intro env s
    constructor
    · unfold generateFinalSql
      dsimp only
      cases h : env.generateQuery pq (bmSet bv "#maxLimit" (.int (s.maxResultSize + 1))) with
      | error e => rfl
      | ok q => rfl
    · exact bmGet_bmSet_self bv "#maxLimit" _
  · intro env s q c hbsc hq
    subst hbsc
    unfold generateFinalSql
    dsimp only
    rw [hq]
  · intro env s q hbsc hq
    subst hbsc
    unfold generateFinalSql
    dsimp only
    rw [hq]
  · intro env s
    unfold execSQLNoPanic
    simp only [bindM_eq, pureM_eq]
    unfold M.bind M.pure getSt connExec emitM
    dsimp only
    cases h : env.execResp s.execIdx with
    | error e => rfl
    | ok qr =>
      by_cases hc : s.maxResultSize < (qr.rows.length : Int)
      · simp only [hc, if_true]
        rfl
      · simp only [hc, if_false]
        rfl
  · intro env s qr hresp hover
    unfold execSQLNoPanic
    simp only [bindM_eq, pureM_eq]
    unfold M.bind M.pure getSt connExec emitM
    dsimp only
    rw [hresp]
    dsimp only
    rw [if_pos hover]
    rfl

/-- Environment whose backend returns an 11-row result, exceeding the
default maxResultSize of 10. -/
def c6Resp : QueryResult :=
  { fields := none, rows := List.replicate 11 (sampleRow 1), rowsAffected := 0, insertID := 0 }

def c6Env : Env :=
  { defaultEnv with execResp := fun _ => .ok c6Resp }

/-- Witness for C6: with the default fixtures, generateFinalSql injects
#maxLimit = 11, appends the stream comment, and an 11-row backend response
fails with the row-count error. -/
theorem claimC6_final_sql_witness :
    (some " /*c*/" : Option String) = some " /*c*/" ∧
    defaultEnv.generateQuery 1 (bmSet [] "#maxLimit" (.int (defaultSt.maxResultSize + 1))) =
      .ok "Q1" ∧
    generateFinalSql 1 [] (some " /*c*/") defaultEnv defaultSt =
      (.ok ("Q1 /*c*/", bmSet [] "#maxLimit" (.int 11)), defaultSt,
        [.genSql 1 (bmSet [] "#maxLimit" (.int 11)) (some " /*c*/")]) ∧
    c6Env.execResp defaultSt.execIdx = .ok c6Resp ∧
    defaultSt.maxResultSize < ((List.replicate 11 (sampleRow 1)).length : Int) ∧
    execSQLNoPanic () "sqlX" true c6Env defaultSt =
      (.ok (.error (.tabletError .fail "Row count exceeded 10")),
        { defaultSt with execIdx := 1 }, [.execErr "sqlX" 10 true, .rewritten "sqlX"]) := by
  refine ⟨rfl, rfl, ?_, rfl, by decide, ?_⟩
  · exact (claimC6_final_sql 1 [] (some " /*c*/") () "sqlX" true).2.1 defaultEnv defaultSt
      "Q1" " /*c*/" rfl rfl
  · exact (claimC6_final_sql 1 [] (some " /*c*/") () "sqlX" true).2.2.2.2 c6Env defaultSt
      c6Resp rfl (by decide)

/-- The (remoteAddr, username) pair checkPermissions reads from the call
info, defaulting to empty strings when none is attached. -/
def ciOf (env : Env) : String × String :=
  match env.callInfo with
  | some p => p
  | none => ("", "")

/-- The table-ACL error string built by checkPermissions. -/
def aclErrMsg (qre : Qre) (username : String) : String :=
  "table acl error: \"" ++ username ++ "\" cannot run "
    ++ qre.plan.planId.goName ++ " on table \"" ++ qre.plan.tableName ++ "\""

/-- Normal form of a non-background checkPermissions run. -/
theorem checkPermissions_run (qre : Qre) (env : Env) (s : St)
    (hbg : env.ctxBackground = false) :
    checkPermissions qre env s =
      (match (env.getActionRes (ciOf env).1 (ciOf env).2 s.bindVars).1 with
       | .qrFail =>
         (.error (.tabletError .fail ("Query disallowed due to rule: "
             ++ (env.getActionRes (ciOf env).1 (ciOf env).2 s.bindVars).2)), s,
           [.rulesGetAction (ciOf env).1 (ciOf env).2])
       | .qrFailRetry =>
         (.error (.tabletError .retry ("Query disallowed due to rule: "
             ++ (env.getActionRes (ciOf env).1 (ciOf env).2 s.bindVars).2)), s,
           [.rulesGetAction (ciOf env).1 (ciOf env).2])
       | .qrContinue =>
         match qre.plan.authorized with
         | none => (.ok (), s, [.rulesGetAction (ciOf env).1 (ciOf env).2])
         | some members =>
           if members.contains (ciOf env).2 then
             (.ok (), s, [.rulesGetAction (ciOf env).1 (ciOf env).2])
           else if env.strictTableAcl then
             (.error (.tabletError .fail (aclErrMsg qre (ciOf env).2)), s,
               [.rulesGetAction (ciOf env).1 (ciOf env).2])
           else
             (.ok (), s, [.rulesGetAction (ciOf env).1 (ciOf env).2,
               .aclLogError (aclErrMsg qre (ciOf env).2)])) := by
  unfold checkPermissions
  simp only [bindM_eq, pureM_eq]
  unfold M.bind M.pure askEnv getSt emitM throwM
  dsimp only
  rw [hbg]
  simp only [Bool.false_eq_true, if_false]
  unfold ciOf aclErrMsg
  cases hinfo : env.callInfo with
  | none =>
    dsimp only
    cases hact : (env.getActionRes "" "" s.bindVars).1 with
    | qrFail => rfl
    | qrFailRetry => rfl
    | qrContinue =>
      cases hauth : qre.plan.authorized with
      | none => rfl
      | some members =>
        dsimp only
        cases hmem : members.contains "" with
        | true => rfl
        | false =>
          cases hstrict : env.strictTableAcl with
          | true => rfl
          | false => rfl
  | some p =>
    dsimp only
    cases hact : (env.getActionRes p.1 p.2 s.bindVars).1 with
    | qrFail => rfl
    | qrFailRetry => rfl
    | qrContinue =>
      cases hauth : qre.plan.authorized with
      | none => rfl
      | some members =>
        dsimp only
        cases hmem : members.contains p.2 with
        | true => rfl
        | false =>
          cases hstrict : env.strictTableAcl with
          | true => rfl
          | false => rfl

/-- C7: checkPermissions performs no rule or ACL evaluation at all for the
context.Background() sentinel; otherwise it evaluates the query rules on
(remoteAddr, username, bindVars), failing terminally (ErrFail) on QR_FAIL
and retriably (ErrRetry) on QR_FAIL_RETRY with the matched rule named in
the message, and on QR_CONTINUE proceeds to the table-ACL check
(authorized table or member user pass; a non-member fails terminally in
strictTableAcl mode and is merely logged otherwise). -/
theorem claimC7_checkPermissions (qre : Qre) (env : Env) (s : St) (addr user : String)
    (hci : ciOf env = (addr, user)) :
    (env.ctxBackground = true → checkPermissions qre env s = (.ok (), s, [])) ∧
    (env.ctxBackground = false →
      (∀ desc, env.getActionRes addr user s.bindVars = (.qrFail, desc) →
        checkPermissions qre env s =
          (.error (.tabletError .fail ("Query disallowed due to rule: " ++ desc)), s,
            [.rulesGetAction addr user])) ∧
      (∀ desc, env.getActionRes addr user s.bindVars = (.qrFailRetry, desc) →
        checkPermissions qre env s =
          (.error (.tabletError .retry ("Query disallowed due to rule: " ++ desc)), s,
            [.rulesGetAction addr user])) ∧
      (∀ desc, env.getActionRes addr user s.bindVars = (.qrContinue, desc) →
        (qre.plan.authorized = none →
          checkPermissions qre env s = (.ok (), s, [.rulesGetAction addr user])) ∧
        (∀ members, qre.plan.authorized = some members →
          (members.contains user = true →
            checkPermissions qre env s = (.ok (), s, [.rulesGetAction addr user])) ∧
          (members.contains user = false → env.strictTableAcl = true →
            checkPermissions qre env s =
              (.error (.tabletError .fail (aclErrMsg qre user)), s,
                [.rulesGetAction addr user])) ∧
          (members.contains user = false → env.strictTableAcl = false →
            checkPermissions qre env s =
              (.ok (), s, [.rulesGetAction addr user,
                .aclLogError (aclErrMsg qre user)]))))) := by
  constructor
  · intro hbg
    unfold checkPermissions
    simp only [bindM_eq, pureM_eq]
    unfold M.bind M.pure askEnv getSt emitM throwM
    dsimp only
    rw [hbg]
    rfl
  · intro hbg
    refine ⟨?_, ?_, ?_⟩
    · intro desc hact
      rw [checkPermissions_run qre env s hbg, hci]
      dsimp only
      rw [hact]
    · intro desc hact
      rw [checkPermissions_run qre env s hbg, hci]
      dsimp only
      rw [hact]
    · intro desc hact
      refine ⟨?_, ?_⟩
      · intro hauth
        rw [checkPermissions_run qre env s hbg, hci]
        dsimp only
        rw [hact, hauth]
      · intro members hauth
        refine ⟨?_, ?_, ?_⟩
        · intro hmem
          rw [checkPermissions_run qre env s hbg, hci]
          dsimp only
          rw [hact, hauth]
          dsimp only
          rw [hmem]
          rfl
        · intro hmem hstrict
          rw [checkPermissions_run qre env s hbg, hci]
          dsimp only
          rw [hact, hauth]
          dsimp only
          rw [hmem, hstrict]
          rfl
        · intro hmem hstrict
          rw [checkPermissions_run qre env s hbg, hci]
          dsimp only
          rw [hact, hauth]
          dsimp only
          rw [hmem, hstrict]
          rfl

/-- Non-background environment whose rules reject every query. -/
def c7Env : Env :=
  { defaultEnv with
    ctxBackground := false
    callInfo := some ("1.2.3.4", "alice")
    strictTableAcl := true
    getActionRes := fun _ _ _ => (.qrFail, "r1") }

/-- Witness for C7: the background sentinel skips all checks, and a
non-background environment whose rules answer QR_FAIL gets the terminal
rule error. -/
theorem claimC7_checkPermissions_witness :
    ciOf defaultEnv = ("", "") ∧
    defaultEnv.ctxBackground = true ∧
    checkPermissions defaultQre defaultEnv defaultSt = (.ok (), defaultSt, []) ∧
    ciOf c7Env = ("1.2.3.4", "alice") ∧
    c7Env.ctxBackground = false ∧
    c7Env.getActionRes "1.2.3.4" "alice" defaultSt.bindVars = (.qrFail, "r1") ∧
    checkPermissions defaultQre c7Env defaultSt =
      (.error (.tabletError .fail "Query disallowed due to rule: r1"), defaultSt,
        [.rulesGetAction "1.2.3.4" "alice"]) := by
  refine ⟨rfl, rfl, ?_, rfl, rfl, rfl, ?_⟩
  · exact (claimC7_checkPermissions defaultQre defaultEnv defaultSt "" "" rfl).1 rfl
  · exact ((claimC7_checkPermissions defaultQre c7Env defaultSt "1.2.3.4" "alice" rfl).2
      rfl).1 "r1" rfl

/-- C8: execDmlAutoCommit begins a transaction (logging a synthetic
"begin"), runs the in-transaction DML branch, commits on normal return
(logging "commit") and rolls back on panic unwind (logging "rollback"),
with the underlying error — not the rollback outcome — propagating
unchanged to the caller. -/
theorem claimC8_autocommit (qre : Qre) (env : Env) (s : St) (txid : Int)
    (hbeg : env.txBeginRes s.txBeginIdx = .ok txid) :
    (∀ r s2 t,
      execDmlAutoCommitInner qre txid env { s with txBeginIdx := s.txBeginIdx + 1 } =
        (.ok r, s2, t) →
      execDmlAutoCommit qre env s =
        (.ok r, s2, [.txBegin txid, .rewritten "begin"] ++ t
          ++ [.txCommit txid, .rewritten "commit"])) ∧
    (∀ e s2 t,
      execDmlAutoCommitInner qre txid env { s with txBeginIdx := s.txBeginIdx + 1 } =
        (.error e, s2, t) →
      execDmlAutoCommit qre env s =
        (.error e, s2, [.txBegin txid, .rewritten "begin"] ++ t
          ++ [.txRollback txid, .rewritten "rollback"])) := by
  constructor
  · intro r s2 t hin
    unfold execDmlAutoCommit
    simp only [bindM_eq, pureM_eq]
    unfold M.bind txBeginM emitM commitOrRollback
    dsimp only
    rw [hbeg]
    dsimp only
    rw [hin]
    simp
  · intro e s2 t hin
    unfold execDmlAutoCommit
    simp only [bindM_eq, pureM_eq]
    unfold M.bind txBeginM emitM commitOrRollback
    dsimp only
    rw [hbeg]
    dsimp only
    rw [hin]
    simp

def c8Plan : Plan :=
  { defaultPlan with
    planId := .PASS_DML
    tableInfo := none }

def c8Qre : Qre := { defaultQre with plan := c8Plan }

/-- Witness for C8: a PASS_DML plan under strict mode panics inside the
transaction; the auto-commit wrapper rolls back, logs begin/rollback and
re-raises the "DML too complex" error unchanged. -/
theorem claimC8_autocommit_witness :
    defaultEnv.txBeginRes defaultSt.txBeginIdx = .ok 7 ∧
    execDmlAutoCommitInner c8Qre 7 defaultEnv { defaultSt with txBeginIdx := 1 } =
      (.error (.tabletError .fail "DML too complex"), { defaultSt with txBeginIdx := 1 },
        [.getTx 7, .recycle]) ∧
    execDmlAutoCommit c8Qre defaultEnv defaultSt =
      (.error (.tabletError .fail "DML too complex"), { defaultSt with txBeginIdx := 1 },
        [.txBegin 7, .rewritten "begin"] ++ [.getTx 7, .recycle]
          ++ [.txRollback 7, .rewritten "rollback"]) := by
  refine ⟨rfl, rfl, ?_⟩
  exact (claimC8_autocommit c8Qre defaultEnv defaultSt 7 rfl).2
    (.tabletError .fail "DML too complex") { defaultSt with txBeginIdx := 1 }
    [.getTx 7, .recycle] rfl

/-- txGetM succeeds with one Get event when the transaction is pinned. -/
theorem txGetM_none (txid : Int) (env : Env) (s : St) (h : env.txPoolGet txid = none) :
    txGetM txid env s = (.ok (), s, [Event.getTx txid]) := by
  unfold txGetM
  rw [h]

/-- txBeginM run when the pool grants the transaction. -/
theorem txBeginM_okRun (txid : Int) (env : Env) (s : St)
    (h : env.txBeginRes s.txBeginIdx = .ok txid) :
    txBeginM env s = (.ok txid, { s with txBeginIdx := s.txBeginIdx + 1 },
      [Event.txBegin txid]) := by
  unfold txBeginM
  dsimp only
  rw [h]

/-- The invalidator handed to the DML branches, as a function of the plan. -/
def invOf (qre : Qre) : Option String :=
  match qre.plan.tableInfo with
  | some ti => if ti.cacheType ≠ CacheType.cacheNone then some qre.plan.tableName else none
  | none => none

/-- The trace of mkInvalidator, as a function of the plan. -/
def invTrace (qre : Qre) : List Event :=
  match qre.plan.tableInfo with
  | some ti => if ti.cacheType ≠ CacheType.cacheNone then [Event.dirtyKeys qre.plan.tableName]
    else []
  | none => []

/-- mkInvalidator changes no state and emits at most the dirty-keys probe. -/
theorem mkInvalidator_run (qre : Qre) (conn : Conn) (env : Env) (s : St) :
    mkInvalidator qre conn env s = (.ok (invOf qre), s, invTrace qre) := by
  unfold mkInvalidator invOf invTrace
  cases hti : qre.plan.tableInfo with
  | none => rfl
  | some ti =>
    dsimp only
    by_cases hc : ti.cacheType ≠ CacheType.cacheNone
    · rw [if_pos hc, if_pos hc, if_pos hc]
      rfl
    · rw [if_neg hc, if_neg hc, if_neg hc]
      rfl

/-- invTrace contains no backend-exec and no GenerateQuery events. -/
theorem invTrace_clean (qre : Qre) :
    execCountOf (invTrace qre) = 0 ∧ genSqlPQs (invTrace qre) = [] := by
  unfold invTrace
  cases hti : qre.plan.tableInfo with
  | none => exact ⟨rfl, rfl⟩
  | some ti =>
    dsimp only
    by_cases hc : ti.cacheType ≠ CacheType.cacheNone
    · rw [if_pos hc]
      exact ⟨rfl, rfl⟩
    · rw [if_neg hc]
      exact ⟨rfl, rfl⟩

/-- checkPermissions is a pure no-op for the context.Background() sentinel. -/
theorem checkPermissions_bg (qre : Qre) (env : Env) (s : St)
    (hbg : env.ctxBackground = true) :
    checkPermissions qre env s = (.ok (), s, []) := by
  unfold checkPermissions
  simp only [bindM_eq, pureM_eq]
  unfold M.bind M.pure askEnv getSt emitM throwM
  dsimp only
  rw [hbg]
  rfl

/-- Under strict mode the shared PASS_DML branch rejects immediately,
touching neither backend nor state. -/
theorem execPassDmlBranch_strict (qre : Qre) (conn : Conn) (env : Env) (s : St)
    (hs : s.strictMode ≠ 0) :
    execPassDmlBranch qre conn env s =
      (.error (.tabletError .fail "DML too complex"), s, []) := by
  unfold execPassDmlBranch
  simp only [bindM_eq, pureM_eq]
  unfold M.bind M.pure getSt throwM
  dsimp only
  rw [if_pos hs]
  rfl

/-- With strict mode off the shared PASS_DML branch hands exactly the
plan's FullQuery to GenerateQuery, on every outcome of the run. -/
theorem execPassDmlBranch_genSql (qre : Qre) (conn : Conn) (env : Env) (s : St)
    (hs : s.strictMode = 0) :
    genSqlPQs ((execPassDmlBranch qre conn env s).2.2) = [qre.plan.fullQuery] := by
  unfold execPassDmlBranch directFetch generateFinalSql execSQL execSQLNoPanic connExec
  simp only [bindM_eq, pureM_eq]
  unfold M.bind M.pure getSt setBindVars modifySt emitM throwM
  dsimp only
  rw [hs]
  rw [if_neg (by decide : ¬((0 : Int) ≠ 0))]
  cases hg : env.generateQuery qre.plan.fullQuery
      (bmSet s.bindVars "#maxLimit" (.int (s.maxResultSize + 1))) with
  | error e => rfl
  | ok q =>
    dsimp only
    cases hr : env.execResp s.execIdx with
    | error e2 => rfl
    | ok qr =>
      dsimp only
      by_cases hover : s.maxResultSize < (qr.rows.length : Int)
      · rw [if_pos hover]
        rfl
      · rw [if_neg hover]
        rfl

/-- Shape of an in-transaction PASS_DML Execute run: one pinned-connection
Get, the recorded query, the invalidator probe, the shared PASS_DML branch
verbatim, and the deferred Recycle. -/
theorem Execute_tx_passdml (qre : Qre) (env : Env) (s : St)
    (hbg : env.ctxBackground = true) (hplan : qre.plan.planId = .PASS_DML)
    (htx : qre.transactionID ≠ 0) (hpool : env.txPoolGet qre.transactionID = none)
    (r3 : Except Panic QueryResult) (s3 : St) (t3 : List Event)
    (hrun : execPassDmlBranch qre () env s = (r3, s3, t3)) :
    Execute qre env s = (r3, s3,
      [Event.getTx qre.transactionID, Event.recordQuery qre.query] ++ invTrace qre
        ++ t3 ++ [Event.recycle]) := by
  unfold Execute
  rw [bind_run_eq _ _ env s () s [] (checkPermissions_bg qre env s hbg)]
  dsimp only
  rw [hplan]
  rw [if_neg (by decide : ¬(PlanId.PASS_DML = PlanId.DDL))]
  rw [if_pos htx]
  rw [bind_run_eq _ _ env s () s [Event.getTx qre.transactionID]
    (txGetM_none qre.transactionID env s hpool)]
  unfold withRecycle withEventAfter
  dsimp only
  rw [mbind_run_eq _ _ env s () s [Event.recordQuery qre.query] rfl]
  dsimp only
  rw [mbind_run_eq _ _ env s (invOf qre) s (invTrace qre) (mkInvalidator_run qre () env s)]
  dsimp only
  rw [hrun]
  simp

/-- Shape of an auto-commit PASS_DML Execute run: synthetic begin, pinned
Get, invalidator probe, the shared PASS_DML branch verbatim, deferred
Recycle, then commit on a normal return and rollback (with the body's
outcome unchanged) on a panic unwind. -/
theorem Execute_auto_passdml (qre : Qre) (env : Env) (s : St)
    (hbg : env.ctxBackground = true) (hplan : qre.plan.planId = .PASS_DML)
    (htx : qre.transactionID = 0) (hac : env.enableAutoCommit = true)
    (txid : Int) (hbeg : env.txBeginRes s.txBeginIdx = .ok txid)
    (hpool : env.txPoolGet txid = none)
    (r3 : Except Panic QueryResult) (s3 : St) (t3 : List Event)
    (hrun : execPassDmlBranch qre () env { s with txBeginIdx := s.txBeginIdx + 1 } =
      (r3, s3, t3)) :
    Execute qre env s = (r3, s3,
      [Event.txBegin txid, Event.rewritten "begin", Event.getTx txid] ++ invTrace qre
        ++ t3 ++ [Event.recycle]
        ++ (match r3 with
            | .ok _ => [Event.txCommit txid, Event.rewritten "commit"]
            | .error _ => [Event.txRollback txid, Event.rewritten "rollback"])) := by
  cases r3 with
  | ok rv =>
    unfold Execute
    rw [bind_run_eq _ _ env s () s [] (checkPermissions_bg qre env s hbg)]
    dsimp only
    rw [hplan]
    rw [if_neg (by decide : ¬(PlanId.PASS_DML = PlanId.DDL))]
    rw [if_neg (by rw [htx]; exact fun h => h rfl)]
    dsimp only
    rw [bind_run_eq _ _ env s env s [] (askEnv_run env s)]
    dsimp only
    rw [hac]
    simp only [Bool.not_true, Bool.false_eq_true, if_false]
    unfold execDmlAutoCommit
    rw [bind_run_eq _ _ env s txid { s with txBeginIdx := s.txBeginIdx + 1 }
      [Event.txBegin txid] (txBeginM_okRun txid env s hbeg)]
    dsimp only
    rw [mbind_run_eq _ _ env { s with txBeginIdx := s.txBeginIdx + 1 } ()
      { s with txBeginIdx := s.txBeginIdx + 1 } [Event.rewritten "begin"] rfl]
    unfold commitOrRollback execDmlAutoCommitInner
    simp only [bindM_eq]
    rw [hplan]
    rw [mbind_run_eq _ _ env { s with txBeginIdx := s.txBeginIdx + 1 } ()
      { s with txBeginIdx := s.txBeginIdx + 1 } [Event.getTx txid]
      (txGetM_none txid env { s with txBeginIdx := s.txBeginIdx + 1 } hpool)]
    unfold withRecycle withEventAfter
    dsimp only
    rw [mbind_run_eq _ _ env { s with txBeginIdx := s.txBeginIdx + 1 } (invOf qre)
      { s with txBeginIdx := s.txBeginIdx + 1 } (invTrace qre)
      (mkInvalidator_run qre () env { s with txBeginIdx := s.txBeginIdx + 1 })]
    dsimp only
    rw [hrun]
    simp
  | error e =>
    unfold Execute
    rw [bind_run_eq _ _ env s () s [] (checkPermissions_bg qre env s hbg)]
    dsimp only
    rw [hplan]
    rw [if_neg (by decide : ¬(PlanId.PASS_DML = PlanId.DDL))]
    rw [if_neg (by rw [htx]; exact fun h => h rfl)]
    dsimp only
    rw [bind_run_eq _ _ env s env s [] (askEnv_run env s)]
    dsimp only
    rw [hac]
    simp only [Bool.not_true, Bool.false_eq_true, if_false]
    unfold execDmlAutoCommit
    rw [bind_run_eq _ _ env s txid { s with txBeginIdx := s.txBeginIdx + 1 }
      [Event.txBegin txid] (txBeginM_okRun txid env s hbeg)]
    dsimp only
    rw [mbind_run_eq _ _ env { s with txBeginIdx := s.txBeginIdx + 1 } ()
      { s with txBeginIdx := s.txBeginIdx + 1 } [Event.rewritten "begin"] rfl]
    unfold commitOrRollback execDmlAutoCommitInner
    simp only [bindM_eq]
    rw [hplan]
    rw [mbind_run_eq _ _ env { s with txBeginIdx := s.txBeginIdx + 1 } ()
      { s with txBeginIdx := s.txBeginIdx + 1 } [Event.getTx txid]
      (txGetM_none txid env { s with txBeginIdx := s.txBeginIdx + 1 } hpool)]
    unfold withRecycle withEventAfter
    dsimp only
    rw [mbind_run_eq _ _ env { s with txBeginIdx := s.txBeginIdx + 1 } (invOf qre)
      { s with txBeginIdx := s.txBeginIdx + 1 } (invTrace qre)
      (mkInvalidator_run qre () env { s with txBeginIdx := s.txBeginIdx + 1 })]
    dsimp only
    rw [hrun]
    simp

/-- C4: for a PLAN_PASS_DML request, both in-transaction and on the
auto-commit path, strict mode on means the request fails with the ErrFail
error "DML too complex" with no backend Exec and no GenerateQuery at all,
while strict mode off passes exactly the plan's FullQuery through to
GenerateQuery (and hence the backend). -/
theorem claimC4_pass_dml_strict (qre : Qre) (env : Env) (s : St)
    (hplan : qre.plan.planId = .PASS_DML) (hbg : env.ctxBackground = true) :
    (qre.transactionID ≠ 0 → env.txPoolGet qre.transactionID = none →
      (s.strictMode ≠ 0 →
        Execute qre env s = (.error (.tabletError .fail "DML too complex"), s,
          [Event.getTx qre.transactionID, Event.recordQuery qre.query] ++ invTrace qre
            ++ [] ++ [Event.recycle]) ∧
        execCountOf ((Execute qre) env s).2.2 = 0 ∧
        genSqlPQs ((Execute qre) env s).2.2 = []) ∧
      (s.strictMode = 0 →
        genSqlPQs ((Execute qre) env s).2.2 = [qre.plan.fullQuery])) ∧
    (qre.transactionID = 0 → env.enableAutoCommit = true →
      ∀ txid, env.txBeginRes s.txBeginIdx = .ok txid → env.txPoolGet txid = none →
      (s.strictMode ≠ 0 →
        Execute qre env s = (.error (.tabletError .fail "DML too complex"),
          { s with txBeginIdx := s.txBeginIdx + 1 },
          [Event.txBegin txid, Event.rewritten "begin", Event.getTx txid] ++ invTrace qre
            ++ [] ++ [Event.recycle] ++ [Event.txRollback txid, Event.rewritten "rollback"]) ∧
        execCountOf ((Execute qre) env s).2.2 = 0 ∧
        genSqlPQs ((Execute qre) env s).2.2 = []) ∧
      (s.strictMode = 0 →
        genSqlPQs ((Execute qre) env s).2.2 = [qre.plan.fullQuery])) := by
  constructor
  · intro htx hpool
    constructor
    · intro hs
      have hE := Execute_tx_passdml qre env s hbg hplan htx hpool _ _ _
        (execPassDmlBranch_strict qre () env s hs)
      refine ⟨hE, ?_, ?_⟩
      · rw [hE]
        have e1 : execCountOf [Event.getTx qre.transactionID, Event.recordQuery qre.query]
          = 0 := rfl
        have e2 : execCountOf ([] : List Event) = 0 := rfl
        have e3 : execCountOf [Event.recycle] = 0 := rfl
        simp only [execCountOf_append, (invTrace_clean qre).1, e1, e2, e3]
      · rw [hE]
        have g1 : genSqlPQs [Event.getTx qre.transactionID, Event.recordQuery qre.query]
          = [] := rfl
        have g2 : genSqlPQs ([] : List Event) = [] := rfl
        have g3 : genSqlPQs [Event.recycle] = [] := rfl
        simp only [genSqlPQs_append, (invTrace_clean qre).2, g1, g2, g3]
        rfl
    · intro hs
      rcases hrun : execPassDmlBranch qre () env s with ⟨r3, s3, t3⟩
      have hg := execPassDmlBranch_genSql qre () env s hs
      rw [hrun] at hg
      dsimp only at hg
      have hE := Execute_tx_passdml qre env s hbg hplan htx hpool r3 s3 t3 hrun
      rw [hE]
      dsimp only
      have g1 : genSqlPQs [Event.getTx qre.transactionID, Event.recordQuery qre.query]
        = [] := rfl
      have g3 : genSqlPQs [Event.recycle] = [] := rfl
      simp only [genSqlPQs_append, (invTrace_clean qre).2, g1, g3, hg]
      simp
  · intro htx hac txid hbeg hpool
    constructor
    · intro hs
      have hE := Execute_auto_passdml qre env s hbg hplan htx hac txid hbeg hpool _ _ _
        (execPassDmlBranch_strict qre () env { s with txBeginIdx := s.txBeginIdx + 1 } hs)
      refine ⟨hE, ?_, ?_⟩
      · rw [hE]
        have e1 : execCountOf [Event.txBegin txid, Event.rewritten "begin", Event.getTx txid]
          = 0 := rfl
        have e2 : execCountOf ([] : List Event) = 0 := rfl
        have e3 : execCountOf [Event.recycle] = 0 := rfl
        have e4 : execCountOf [Event.txRollback txid, Event.rewritten "rollback"] = 0 := rfl
        simp only [execCountOf_append, (invTrace_clean qre).1, e1, e2, e3, e4]
      · rw [hE]
        have g1 : genSqlPQs [Event.txBegin txid, Event.rewritten "begin", Event.getTx txid]
          = [] := rfl
        have g2 : genSqlPQs ([] : List Event) = [] := rfl
        have g3 : genSqlPQs [Event.recycle] = [] := rfl
        have g4 : genSqlPQs [Event.txRollback txid, Event.rewritten "rollback"] = [] := rfl
        simp only [genSqlPQs_append, (invTrace_clean qre).2, g1, g2, g3, g4]
        rfl
    · intro hs
      rcases hrun : execPassDmlBranch qre () env { s with txBeginIdx := s.txBeginIdx + 1 }
        with ⟨r3, s3, t3⟩
      have hg := execPassDmlBranch_genSql qre () env { s with txBeginIdx := s.txBeginIdx + 1 } hs
      rw [hrun] at hg
      dsimp only at hg
      have hE := Execute_auto_passdml qre env s hbg hplan htx hac txid hbeg hpool r3 s3 t3 hrun
      rw [hE]
      dsimp only
      have g1 : genSqlPQs [Event.txBegin txid, Event.rewritten "begin", Event.getTx txid]
        = [] := rfl
      have g3 : genSqlPQs [Event.recycle] = [] := rfl
      have g4 : genSqlPQs [Event.txRollback txid, Event.rewritten "rollback"] = [] := rfl
      have g5 : genSqlPQs [Event.txCommit txid, Event.rewritten "commit"] = [] := rfl
      cases r3 with
      | ok rv =>
        simp only [genSqlPQs_append, (invTrace_clean qre).2, g1, g3, g5, hg]
        simp
      | error e =>
        simp only [genSqlPQs_append, (invTrace_clean qre).2, g1, g3, g4, hg]
        simp

/-- Witness for C4: the auto-commit path of a PASS_DML plan under the
default strict-mode state rejects with "DML too complex" after
begin/rollback, with no Exec and no GenerateQuery in the trace. -/
theorem claimC4_pass_dml_strict_witness :
    c8Qre.plan.planId = .PASS_DML ∧
    defaultEnv.ctxBackground = true ∧
    c8Qre.transactionID = 0 ∧
    defaultEnv.enableAutoCommit = true ∧
    defaultEnv.txBeginRes defaultSt.txBeginIdx = .ok 7 ∧
    defaultEnv.txPoolGet 7 = none ∧
    defaultSt.strictMode ≠ 0 ∧
    Execute c8Qre defaultEnv defaultSt =
      (.error (.tabletError .fail "DML too complex"),
        { defaultSt with txBeginIdx := 1 },
        [Event.txBegin 7, Event.rewritten "begin", Event.getTx 7] ++ invTrace c8Qre
          ++ [] ++ [Event.recycle] ++ [Event.txRollback 7, Event.rewritten "rollback"]) := by
  refine ⟨rfl, rfl, rfl, rfl, rfl, rfl, by decide, ?_⟩
  exact (((claimC4_pass_dml_strict c8Qre defaultEnv defaultSt rfl rfl).2 rfl rfl 7 rfl
    rfl).1 (by decide)).1
